import Mathlib

/-!
Shallow embedding of the x402-boilerplate payment pipeline:
the Node.js facilitator (src/facilitator/x402-facilitator.cjs), the PHP
payment gate (X402Middleware) and the browser client service (X402Service).

JSON values exchanged on the wire are modelled by a mutual inductive
`Json`/`JList`/`JMembers` (member order is significant, matching both
JSON.stringify and PHP json_encode which preserve insertion order).
`printJson` models compact JSON serialization (JSON.stringify and
json_encode agree on the ASCII-printable fragment the system produces);
`parseJson` models JSON.parse / json_decode on that fragment.
Base64 (btoa / base64_encode) is implemented on character codes.
-/

set_option maxHeartbeats 1000000

namespace X402

mutual

/-- JSON values; objects keep their members in insertion order. -/
inductive Json where
  | null : Json
  | bool (b : Bool) : Json
  | num (n : Int) : Json
  | str (s : String) : Json
  | arr (elems : JList) : Json
  | obj (members : JMembers) : Json

/-- A list of JSON values (array elements). -/
inductive JList where
  | nil : JList
  | cons (hd : Json) (tl : JList) : JList

/-- Object members: key/value pairs in insertion order. -/
inductive JMembers where
  | nil : JMembers
  | cons (k : String) (v : Json) (tl : JMembers) : JMembers

end

/-- Lookup of an object member by key (PHP `$arr['k']`, JS `obj.k`). -/
def jget : Json → String → Option Json
  | .obj ms, k => go ms k
  | _, _ => none
where
  go : JMembers → String → Option Json
    | .nil, _ => none
    | .cons k' v t, k => if k' = k then some v else go t k

/-- PHP truthiness of a decoded JSON value (`json_decode($s, true)` then
`if (!$x)`): null, false, 0, the empty string, the string "0" and the
empty array (which is also what an empty JSON object decodes to under
assoc mode) are falsy; everything else is truthy. -/
def phpTruthy : Json → Bool
  | .null => false
  | .bool b => b
  | .num n => n != 0
  | .str s => !(s = "" || s = "0")
  | .arr .nil => false
  | .arr (.cons _ _) => true
  | .obj .nil => false
  | .obj (.cons _ _ _) => true

/-- PHP `($x['k'] ?? false)` evaluated for truthiness. -/
def phpFieldTruthy (j : Json) (k : String) : Bool :=
  match jget j k with
  | some v => phpTruthy v
  | none => false

/-- PHP `($x['k'] ?? default)` where a string is expected (the
facilitator only ever puts strings in these fields). -/
def phpFieldStr (j : Json) (k : String) (dflt : String) : String :=
  match jget j k with
  | some (.str s) => s
  | _ => dflt

-- ============================================================
-- JSON printing (compact, as JSON.stringify / json_encode emit)
-- ============================================================

/-- Opening brace character, code 123. -/
def lbrace : Char := Char.ofNat 123

/-- Closing brace character, code 125. -/
def rbrace : Char := Char.ofNat 125

/-- Decimal digit character for d < 10. -/
def digitCh (d : Nat) : Char := Char.ofNat (48 + d)

/-- Decimal digits of a natural number, most significant first. -/
def natChars (n : Nat) : List Char :=
  if h : n < 10 then [digitCh n]
  else natChars (n / 10) ++ [digitCh (n % 10)]
  decreasing_by exact Nat.div_lt_self (by omega) (by omega)

/-- Decimal rendering of an integer. -/
def intChars (n : Int) : List Char :=
  if n < 0 then '-' :: natChars n.natAbs else natChars n.natAbs

mutual

/-- Compact JSON serialization; strings are emitted verbatim (the
system's strings need no escaping, see `jsafe`). -/
def printJson : Json → List Char
  | .null => 'n' :: ['u', 'l', 'l']
  | .bool true => 't' :: ['r', 'u', 'e']
  | .bool false => 'f' :: ['a', 'l', 's', 'e']
  | .num n => intChars n
  | .str s => '"' :: (s.data ++ ['"'])
  | .arr es => '[' :: printElems es
  | .obj ms => lbrace :: printMembers ms

/-- Elements of an array, terminated by the closing bracket. -/
def printElems : JList → List Char
  | .nil => [']']
  | .cons h .nil => printJson h ++ [']']
  | .cons h (.cons h' t) => printJson h ++ ',' :: printElems (.cons h' t)

/-- Members of an object, terminated by the closing brace. -/
def printMembers : JMembers → List Char
  | .nil => [rbrace]
  | .cons k v .nil => '"' :: k.data ++ '"' :: ':' :: printJson v ++ [rbrace]
  | .cons k v (.cons k' v' t) =>
      '"' :: k.data ++ '"' :: ':' :: printJson v ++ ',' :: printMembers (.cons k' v' t)

end

/-- String form of the compact serialization. -/
def printJsonStr (j : Json) : String := ⟨printJson j⟩

-- ============================================================
-- Safety predicate: the ASCII-printable fragment the system emits
-- ============================================================

/-- Characters that serialize verbatim inside a JSON string: printable
ASCII except the double quote and the backslash. -/
def safeChar (c : Char) : Bool :=
  32 ≤ c.toNat && c.toNat < 127 && c ≠ '"' && c ≠ '\\'

mutual

/-- The value only contains strings made of `safeChar` characters, so
its serialization needs no escapes; every wire object this system
produces satisfies it. -/
def jsafe : Json → Bool
  | .null => true
  | .bool _ => true
  | .num _ => true
  | .str s => s.data.all safeChar
  | .arr es => lsafe es
  | .obj ms => msafe ms

def lsafe : JList → Bool
  | .nil => true
  | .cons h t => jsafe h && lsafe t

def msafe : JMembers → Bool
  | .nil => true
  | .cons k v t => k.data.all safeChar && jsafe v && msafe t

end

-- ============================================================
-- JSON parsing (JSON.parse / json_decode on the emitted fragment)
-- ============================================================

/-- Scan the body of a JSON string up to the closing quote; escapes and
control characters are outside the modelled fragment. -/
def scanStr : List Char → Option (List Char × List Char)
  | [] => none
  | c :: rest =>
      if c = '"' then some ([], rest)
      else if c = '\\' || c.toNat < 32 then none
      else match scanStr rest with
        | some (cs, r) => some (c :: cs, r)
        | none => none

/-- Split a leading run of decimal digits. -/
def takeDigits : List Char → List Char × List Char
  | [] => ([], [])
  | c :: rest =>
      if c.isDigit then
        let p := takeDigits rest
        (c :: p.1, p.2)
      else ([], c :: rest)

/-- Numeric value of a digit run. -/
def digitsVal (ds : List Char) : Nat :=
  ds.foldl (fun a c => a * 10 + (c.toNat - 48)) 0

/-- Parse a nonnegative number: at least one digit. -/
def parseNat (input : List Char) : Option (Nat × List Char) :=
  match takeDigits input with
  | ([], _) => none
  | (ds, rest) => some (digitsVal ds, rest)

/-- Strip an expected literal off the input. -/
def stripPre : List Char → List Char → Option (List Char)
  | [], input => some input
  | _ :: _, [] => none
  | p :: ps, c :: rest => if c = p then stripPre ps rest else none

/-- Continuation of an array literal after the opening bracket: an
immediate close, or the element list. -/
def arrTail (k : List Char → Option (Json × List Char)) :
    List Char → Option (Json × List Char)
  | [] => none
  | c2 :: rest2 => if c2 = ']' then some (.arr .nil, rest2) else k (c2 :: rest2)

/-- Continuation of an object literal after the opening brace. -/
def objTail (k : List Char → Option (Json × List Char)) :
    List Char → Option (Json × List Char)
  | [] => none
  | c2 :: rest2 => if c2 = rbrace then some (.obj .nil, rest2) else k (c2 :: rest2)

mutual

/-- Fueled recursive-descent JSON parser; fuel bounded below by the
input length suffices. -/
def parseVal : Nat → List Char → Option (Json × List Char)
  | 0, _ => none
  | Nat.succ _, [] => none
  | Nat.succ n, c :: rest =>
      if c = 'n' then (stripPre ['u', 'l', 'l'] rest).map fun r => (.null, r)
      else if c = 't' then (stripPre ['r', 'u', 'e'] rest).map fun r => (.bool true, r)
      else if c = 'f' then (stripPre ['a', 'l', 's', 'e'] rest).map fun r => (.bool false, r)
      else if c = '"' then (scanStr rest).map fun p => (.str ⟨p.1⟩, p.2)
      else if c = '-' then (parseNat rest).map fun p => (.num (-(p.1 : Int)), p.2)
      else if c = '[' then arrTail (parseElems n) rest
      else if c = lbrace then objTail (parseMembers n) rest
      else if c.isDigit then (parseNat (c :: rest)).map fun p => (.num (p.1 : Int), p.2)
      else none
termination_by n input => (n, 0)

/-- Parse one or more array elements up to the closing bracket. -/
def parseElems : Nat → List Char → Option (Json × List Char)
  | 0, _ => none
  | Nat.succ n, input =>
      (parseVal (Nat.succ n) input).bind fun vr =>
        match vr.2 with
        | [] => none
        | c :: rest =>
            if c = ']' then some (.arr (.cons vr.1 .nil), rest)
            else if c = ',' then
              (parseElems n rest).bind fun tr =>
                match tr.1 with
                | .arr tail => some (.arr (.cons vr.1 tail), tr.2)
                | _ => none
            else none
termination_by n input => (n, 1)

/-- Parse one or more object members up to the closing brace. -/
def parseMembers : Nat → List Char → Option (Json × List Char)
  | 0, _ => none
  | Nat.succ _, [] => none
  | Nat.succ n, c0 :: rest =>
      if c0 = '"' then
        (scanStr rest).bind fun sp =>
          match sp.2 with
          | ':' :: r' =>
              (parseVal (Nat.succ n) r').bind fun vr =>
                match vr.2 with
                | [] => none
                | c :: rest' =>
                    if c = rbrace then some (.obj (.cons ⟨sp.1⟩ vr.1 .nil), rest')
                    else if c = ',' then
                      (parseMembers n rest').bind fun tr =>
                        match tr.1 with
                        | .obj tail => some (.obj (.cons ⟨sp.1⟩ vr.1 tail), tr.2)
                        | _ => none
                    else none
          | _ => none
      else none
termination_by n input => (n, 2)

end

/-- JSON.parse / json_decode: parse the whole input or fail. -/
def parseJson (s : String) : Option Json :=
  match parseVal (s.data.length + 1) s.data with
  | some (j, []) => some j
  | _ => none

-- ============================================================
-- Base64 (btoa / atob, base64_encode / base64_decode)
-- ============================================================

/-- The standard base64 alphabet character of a 6-bit group. -/
def encC (n : Nat) : Char :=
  Char.ofNat
    (if n < 26 then 65 + n
     else if n < 52 then 71 + n
     else if n < 62 then n - 4
     else if n = 62 then 43 else 47)

/-- Inverse of `encC`: the 6-bit value of an alphabet character. -/
def decC (c : Char) : Option Nat :=
  let n := c.toNat
  if 65 ≤ n && n ≤ 90 then some (n - 65)
  else if 97 ≤ n && n ≤ 122 then some (n - 71)
  else if 48 ≤ n && n ≤ 57 then some (n + 4)
  else if n = 43 then some 62
  else if n = 47 then some 63
  else none

/-- Base64 encoding of a byte sequence (values below 256). -/
def b64encBytes : List Nat → List Char
  | [] => []
  | [a] => [encC (a / 4), encC (a % 4 * 16), '=', '=']
  | [a, b] => [encC (a / 4), encC (a % 4 * 16 + b / 16), encC (b % 16 * 4), '=']
  | a :: b :: c :: rest =>
      encC (a / 4) :: encC (a % 4 * 16 + b / 16) :: encC (b % 16 * 4 + c / 64)
        :: encC (c % 64) :: b64encBytes rest

/-- Base64 decoding back to bytes. -/
def b64decBytes : List Char → Option (List Nat)
  | [] => some []
  | c1 :: c2 :: c3 :: c4 :: rest =>
      match decC c1, decC c2 with
      | some a, some b =>
          if c3 = '=' then
            if c4 = '=' && rest.isEmpty && b % 16 = 0 then some [a * 4 + b / 16]
            else none
          else
            match decC c3 with
            | some c =>
                if c4 = '=' then
                  if rest.isEmpty && c % 4 = 0 then
                    some [a * 4 + b / 16, b % 16 * 16 + c / 4]
                  else none
                else
                  match decC c4 with
                  | some d =>
                      match b64decBytes rest with
                      | some tail =>
                          some ((a * 4 + b / 16) :: (b % 16 * 16 + c / 4) :: (c % 4 * 64 + d) :: tail)
                      | none => none
                  | none => none
            | none => none
      | _, _ => none
  | _ => none

/-- btoa / base64_encode of a byte string (each character one byte). -/
def b64encodeStr (s : String) : String :=
  ⟨b64encBytes (s.data.map Char.toNat)⟩

/-- atob / base64_decode. -/
def b64decodeStr (s : String) : Option String :=
  (b64decBytes s.data).map fun bs => ⟨bs.map Char.ofNat⟩

/-- Wire encoding used by gate, client and facilitator:
base64 of the compact JSON serialization. -/
def encodeHeader (j : Json) : String := b64encodeStr (printJsonStr j)

/-- Wire decoding: base64 decode, then JSON parse. -/
def decodeHeader (s : String) : Option Json :=
  match b64decodeStr s with
  | some t => parseJson t
  | none => none

/-- ASCII lower-casing of one character (the fragment of
(lowerStr String.prototype)Case / strtolower that hex addresses use). -/
def lowerChar (c : Char) : Char :=
  if 65 ≤ c.toNat ∧ c.toNat ≤ 90 then Char.ofNat (c.toNat + 32) else c

/-- ASCII lower-casing of a string, structurally recursive so concrete
instances evaluate. -/
def lowerStr (s : String) : String := ⟨s.data.map lowerChar⟩

-- ============================================================
-- Data model (x402-facilitator.cjs structures)
-- ============================================================

/-- An entry of `CONFIG.assets` in x402-facilitator.cjs. -/
structure AssetInfo where
  symbol : String
  decimals : Nat
  eip3009 : Bool
  eip712Name : String
  eip712Version : String
deriving DecidableEq

/-- EIP-3009 authorization as carried in `payload.payload.authorization`.
The JS code converts the decimal-string fields with BigInt / Number;
they are modelled as already-converted naturals. -/
structure Authorization where
  from_ : String
  to_ : String
  value : Nat
  validAfter : Nat
  validBefore : Nat
  nonce : String
deriving DecidableEq

/-- `payload.payload`: the signature plus the authorization. -/
structure InnerPayload where
  signature : String
  authorization : Authorization
deriving DecidableEq

/-- The client's PaymentPayload (decoded PAYMENT-SIGNATURE). -/
structure PaymentPayload where
  x402Version : Nat
  scheme : String
  network : String
  payload : InnerPayload
deriving DecidableEq

/-- `requirements.extra`; every field is optional in the JS object. -/
structure ExtraInfo where
  settlementMode : Option String
  assetTransferMethod : Option String
  orderId : Option String
  name : Option String
  version : Option String
deriving DecidableEq

/-- PaymentRequirements as read by the facilitator. `amount` is the
decimal string converted by BigInt. -/
structure Requirements where
  asset : String
  payTo : String
  amount : Nat
  extra : Option ExtraInfo
deriving DecidableEq

/-- Body of a verify / settle POST: payload plus requirements. -/
structure VerifyBody where
  payload : PaymentPayload
  requirements : Requirements
deriving DecidableEq

/-- Boot-time facilitator configuration (CONFIG plus env values). -/
structure FacConfig where
  apiKey : String
  chainId : Nat
  network : String
  assets : List (String × AssetInfo)
  escrowAdapter : String
  relayer : String
  demoBuyerKey : Option String
deriving DecidableEq

/-- EIP-712 domain tuple built by the verify handlers. -/
structure Eip712Domain where
  name : String
  version : String
  chainId : Nat
  verifyingContract : String
deriving DecidableEq

/-- The transferWithAuthorization transaction the facilitator sends
in transfer mode (fields in call order, plus gas limit and the
transaction sender, i.e. the relayer wallet the contract is bound to). -/
structure TxRequest where
  asset : String
  from_ : String
  to_ : String
  value : Nat
  validAfter : Nat
  validBefore : Nat
  nonce : String
  signature : String
  gasLimit : Nat
  sender : String
deriving DecidableEq

/-- Arguments of adapter.settlePayment (escrow mode), used both for the
staticCall simulation and for the settlement transaction. -/
structure EscrowCall where
  adapter : String
  asset : String
  orderId : Option String
  buyer : String
  value : Nat
  validAfter : Nat
  validBefore : Nat
  nonce : String
  signature : String
  sender : String
deriving DecidableEq

/-- A mined transaction receipt. -/
structure Receipt where
  hash : String
deriving DecidableEq

/-- External world the handlers interact with: EIP-712 recovery
(ethers.verifyTypedData, which throws on undecodable signatures,
modelled as Except), the chain reads/writes, and the clock.
`demoRest` abstracts the demo-ai handler's downstream flow (two
loopback fetches and a signing step) which no claim depends on. -/
structure ChainEnv where
  recover : Eip712Domain → Authorization → String → Except String String
  balanceOf : String → String → Nat
  now : Nat
  staticSettle : EscrowCall → Except String Unit
  sendTransfer : TxRequest → Except String Receipt
  sendSettle : EscrowCall → Nat → Except String Receipt
  demoRest : Nat × Json

/-- Observable side effects of one facilitator request. -/
structure Effects where
  bodyParsed : Bool := false
  balanceReads : Nat := 0
  staticCalls : Nat := 0
  sentTransferTx : Option TxRequest := none
  sentEscrowTx : Option EscrowCall := none
deriving DecidableEq

/-- One facilitator HTTP response with its side effects. -/
structure FacResult where
  status : Nat
  body : Json
  fx : Effects

/-- `if (!apiKey || apiKey !== API_KEY)`: absent or empty header is
falsy; otherwise exact string comparison with the boot-time key. -/
def apiKeyOk (cfg : FacConfig) (k : Option String) : Bool :=
  match k with
  | none => false
  | some s => !(s = "") && s = cfg.apiKey

/-- `{error: msg}` body. -/
def errJson (msg : String) : Json := .obj (.cons "error" (.str msg) .nil)

/-- `{valid: true}` body. -/
def validJson : Json := .obj (.cons "valid" (.bool true) .nil)

/-- `{valid: false, reason}` body. -/
def invalidJson (reason : String) : Json :=
  .obj (.cons "valid" (.bool false) (.cons "reason" (.str reason) .nil))

/-- The successful settle body, keys in the JS insertion order. -/
def settleOkJson (network txHash payer : String) : Json :=
  .obj (.cons "x402Version" (.num 2) (.cons "scheme" (.str "exact")
    (.cons "network" (.str network) (.cons "success" (.bool true)
    (.cons "transaction" (.str txHash) (.cons "payer" (.str payer) .nil))))))

/-- `{success: false, error}` body. -/
def settleErrJson (e : String) : Json :=
  .obj (.cons "success" (.bool false) (.cons "error" (.str e) .nil))

/-- `{success: false, message}` body (demo-ai failures). -/
def demoErrJson (m : String) : Json :=
  .obj (.cons "success" (.bool false) (.cons "message" (.str m) .nil))

/-- `requirements.extra?.settlementMode`. -/
def extraSettlementMode (r : Requirements) : Option String :=
  match r.extra with
  | none => none
  | some e => e.settlementMode

/-- `requirements.extra?.assetTransferMethod`. -/
def extraTransferMethod (r : Requirements) : Option String :=
  match r.extra with
  | none => none
  | some e => e.assetTransferMethod

-- ============================================================
-- Facilitator handlers (x402-facilitator.cjs)
-- ============================================================

/-- POST /x402/verify-transfer (handleVerifyTransfer, lines 341-389):
API-key gate, body parse, then the transfer-mode checks in source
order, answering 200 with the first failure's reason or valid:true. -/
def handleVerifyTransfer (cfg : FacConfig) (env : ChainEnv)
    (apiKey : Option String) (body : Option VerifyBody) : FacResult :=
  if !(apiKeyOk cfg apiKey) then
    ⟨401, errJson "Invalid or missing API key", {}⟩
  else
    match body with
    | none => ⟨400, invalidJson "Invalid JSON body", { bodyParsed := true }⟩
    | some b =>
      let payload := b.payload
      let requirements := b.requirements
      let fx : Effects := { bodyParsed := true }
      if payload.x402Version ≠ 2 then ⟨200, invalidJson "Unsupported x402 version", fx⟩
      else if payload.scheme ≠ "exact" then ⟨200, invalidJson "Unsupported scheme", fx⟩
      else if payload.network ≠ cfg.network then
        ⟨200, invalidJson ("Wrong network: " ++ payload.network), fx⟩
      else
        let assetAddr := (lowerStr requirements.asset)
        match cfg.assets.lookup assetAddr with
        | none => ⟨200, invalidJson "Unsupported asset", fx⟩
        | some asset =>
          if !asset.eip3009 then ⟨200, invalidJson "Unsupported asset", fx⟩
          else if extraSettlementMode requirements ≠ some "transfer" then
            ⟨200, invalidJson "Settlement mode must be transfer", fx⟩
          else
            let auth := payload.payload.authorization
            let domain : Eip712Domain :=
              ⟨asset.eip712Name, asset.eip712Version, cfg.chainId, requirements.asset⟩
            match env.recover domain auth payload.payload.signature with
            | .error e => ⟨200, invalidJson e, fx⟩
            | .ok recoveredSigner =>
              if (lowerStr recoveredSigner) ≠ (lowerStr auth.from_) then
                ⟨200, invalidJson "Invalid signature", fx⟩
              else if (lowerStr auth.to_) ≠ (lowerStr requirements.payTo) then
                ⟨200, invalidJson "Wrong payment destination (expected treasury)", fx⟩
              else
                let balance := env.balanceOf requirements.asset auth.from_
                let fxB : Effects := { bodyParsed := true, balanceReads := 1 }
                if balance < auth.value then ⟨200, invalidJson "Insufficient balance", fxB⟩
                else if env.now < auth.validAfter || env.now > auth.validBefore then
                  ⟨200, invalidJson "Authorization expired or not yet valid", fxB⟩
                else if auth.value < requirements.amount then
                  ⟨200, invalidJson "Insufficient amount", fxB⟩
                else ⟨200, validJson, fxB⟩

/-- POST /x402/verify (handleVerify, lines 237-302): escrow-mode
verify; returns 400 when no escrow adapter is configured, otherwise
the ordered checks ending in the settlePayment staticCall simulation. -/
def handleVerify (cfg : FacConfig) (env : ChainEnv)
    (apiKey : Option String) (body : Option VerifyBody) : FacResult :=
  if !(apiKeyOk cfg apiKey) then
    ⟨401, errJson "Invalid or missing API key", {}⟩
  else if cfg.escrowAdapter = "" then
    ⟨400, invalidJson "Escrow adapter not configured", {}⟩
  else
    match body with
    | none => ⟨400, invalidJson "Invalid JSON body", { bodyParsed := true }⟩
    | some b =>
      let payload := b.payload
      let requirements := b.requirements
      let fx : Effects := { bodyParsed := true }
      if payload.x402Version ≠ 2 then ⟨200, invalidJson "Unsupported x402 version", fx⟩
      else if payload.scheme ≠ "exact" then ⟨200, invalidJson "Unsupported scheme", fx⟩
      else if payload.network ≠ cfg.network then
        ⟨200, invalidJson ("Wrong network: " ++ payload.network), fx⟩
      else
        let assetAddr := (lowerStr requirements.asset)
        match cfg.assets.lookup assetAddr with
        | none => ⟨200, invalidJson "Unsupported asset", fx⟩
        | some asset =>
          if !asset.eip3009 then ⟨200, invalidJson "Unsupported asset", fx⟩
          else if extraTransferMethod requirements ≠ some "eip3009" then
            ⟨200, invalidJson "Only eip3009 method supported", fx⟩
          else
            let auth := payload.payload.authorization
            let domain : Eip712Domain :=
              ⟨asset.eip712Name, asset.eip712Version, cfg.chainId, requirements.asset⟩
            match env.recover domain auth payload.payload.signature with
            | .error e => ⟨200, invalidJson e, fx⟩
            | .ok recoveredSigner =>
              if (lowerStr recoveredSigner) ≠ (lowerStr auth.from_) then
                ⟨200, invalidJson "Invalid signature", fx⟩
              else if (lowerStr auth.to_) ≠ (lowerStr cfg.escrowAdapter) then
                ⟨200, invalidJson "Wrong payment destination", fx⟩
              else
                let balance := env.balanceOf requirements.asset auth.from_
                let fxB : Effects := { bodyParsed := true, balanceReads := 1 }
                if balance < auth.value then ⟨200, invalidJson "Insufficient balance", fxB⟩
                else if env.now < auth.validAfter || env.now > auth.validBefore then
                  ⟨200, invalidJson "Authorization expired or not yet valid", fxB⟩
                else if auth.value < requirements.amount then
                  ⟨200, invalidJson "Insufficient amount", fxB⟩
                else
                  let call : EscrowCall :=
                    ⟨cfg.escrowAdapter, requirements.asset,
                     (match requirements.extra with | some e => e.orderId | none => none),
                     auth.from_, auth.value, auth.validAfter, auth.validBefore,
                     auth.nonce, payload.payload.signature, cfg.relayer⟩
                  let fxS : Effects := { bodyParsed := true, balanceReads := 1, staticCalls := 1 }
                  match env.staticSettle call with
                  | .error simError =>
                      ⟨200, invalidJson ("Settlement simulation failed: " ++ simError), fxS⟩
                  | .ok _ => ⟨200, validJson, fxS⟩

/-- POST /x402/settle-transfer (handleSettleTransfer, lines 391-422):
after the API-key gate and body parse it sends
transferWithAuthorization with gas limit 200000 through the relayer
wallet, with no off-chain re-checks; chain failure becomes HTTP 500. -/
def handleSettleTransfer (cfg : FacConfig) (env : ChainEnv)
    (apiKey : Option String) (body : Option VerifyBody) : FacResult :=
  if !(apiKeyOk cfg apiKey) then
    ⟨401, errJson "Invalid or missing API key", {}⟩
  else
    match body with
    | none => ⟨400, settleErrJson "Invalid JSON body", { bodyParsed := true }⟩
    | some b =>
      let auth := b.payload.payload.authorization
      let tx : TxRequest :=
        ⟨b.requirements.asset, auth.from_, auth.to_, auth.value, auth.validAfter,
         auth.validBefore, auth.nonce, b.payload.payload.signature, 200000, cfg.relayer⟩
      let fx : Effects := { bodyParsed := true, sentTransferTx := some tx }
      match env.sendTransfer tx with
      | .ok receipt => ⟨200, settleOkJson cfg.network receipt.hash auth.from_, fx⟩
      | .error e => ⟨500, settleErrJson e, fx⟩

/-- POST /x402/settle (handleSettle, lines 304-337): escrow-mode
settlement through adapter.settlePayment with gas limit 500000. -/
def handleSettle (cfg : FacConfig) (env : ChainEnv)
    (apiKey : Option String) (body : Option VerifyBody) : FacResult :=
  if !(apiKeyOk cfg apiKey) then
    ⟨401, errJson "Invalid or missing API key", {}⟩
  else if cfg.escrowAdapter = "" then
    ⟨400, settleErrJson "Escrow adapter not configured", {}⟩
  else
    match body with
    | none => ⟨400, settleErrJson "Invalid JSON body", { bodyParsed := true }⟩
    | some b =>
      let auth := b.payload.payload.authorization
      let call : EscrowCall :=
        ⟨cfg.escrowAdapter, b.requirements.asset,
         (match b.requirements.extra with | some e => e.orderId | none => none),
         auth.from_, auth.value, auth.validAfter, auth.validBefore,
         auth.nonce, b.payload.payload.signature, cfg.relayer⟩
      let fx : Effects := { bodyParsed := true, sentEscrowTx := some call }
      match env.sendSettle call 500000 with
      | .ok receipt => ⟨200, settleOkJson cfg.network receipt.hash auth.from_, fx⟩
      | .error e => ⟨500, settleErrJson e, fx⟩

/-- Body of a demo-ai POST. -/
structure DemoBody where
  question : Option String
deriving DecidableEq

/-- POST /x402/demo-ai (handleDemoAi, lines 426-528): X-Facilitator-Key
gate, body parse, question validation, demo-wallet check; the
remaining flow (loopback fetches and signing) is `env.demoRest`. -/
def handleDemoAi (cfg : FacConfig) (env : ChainEnv)
    (facilitatorKey : Option String) (body : Option DemoBody) : FacResult :=
  if !(apiKeyOk cfg facilitatorKey) then
    ⟨401, errJson "Invalid or missing API key", {}⟩
  else
    match body with
    | none => ⟨400, demoErrJson "Invalid JSON body", { bodyParsed := true }⟩
    | some b =>
      let fx : Effects := { bodyParsed := true }
      let question := (b.question.getD "").trim
      if question = "" || question.length > 500 then
        ⟨422, demoErrJson "Question required (max 500 chars)", fx⟩
      else
        match cfg.demoBuyerKey with
        | none => ⟨500, demoErrJson "No demo wallet configured (set DEMO_BUYER_KEY)", fx⟩
        | some _ => ⟨env.demoRest.1, env.demoRest.2, fx⟩

-- ============================================================
-- Payment gate (X402Middleware, PHP)
-- ============================================================

/-- What the gate does with one request. `proceed` means control is
handed to the protected resource handler. -/
inductive GateOutcome where
  | sent402 (headerVal : String)
  | invalidPayload
  | verifyFailed (message : String)
  | settleFailed (message : String)
  | proceed (settleResult : Json)

/-- Gate outcome plus which facilitator endpoints were called and the
PAYMENT-RESPONSE header that was set, if any. -/
structure GateResult where
  outcome : GateOutcome
  verifyCalled : Bool
  settleCalled : Bool
  paymentResponseHeader : Option String

/-- The two facilitator responses as decoded by callFacilitator
(json_decode of the response body); `none` models a transport failure
or a non-200/402 HTTP status, for which callFacilitator returns null. -/
structure GateEnv where
  verifyResp : Option Json
  settleResp : Option Json

/-- `$verifyResult['reason'] ?? 'unknown'` (resp. 'error'); the
facilitator only ever puts strings there. -/
def gateFieldOr (r : Option Json) (k : String) : String :=
  match r with
  | some v => phpFieldStr v k "unknown"
  | none => "unknown"

/-- `!$r || !($r['k'] ?? false)` — the gate's failure test on a
facilitator result. -/
def gateResultFails (r : Option Json) (k : String) : Bool :=
  match r with
  | none => true
  | some v => !(phpTruthy v) || !(phpFieldTruthy v k)

/-- X402Middleware::handleTransfer. `headerDecoded` is
json_decode(base64_decode(header)) of the PAYMENT-SIGNATURE header when
present (`Json.null` doubles for undecodable input, exactly as in PHP
where json_decode returns null on failure). -/
def gateHandleTransfer (requirements : Json) (headerDecoded : Option Json)
    (env : GateEnv) : GateResult :=
  match headerDecoded with
  | none =>
      ⟨.sent402 (encodeHeader (Json.arr (.cons requirements .nil))), false, false, none⟩
  | some payload =>
      if !(phpTruthy payload) then ⟨.invalidPayload, false, false, none⟩
      else if gateResultFails env.verifyResp "valid" then
        ⟨.verifyFailed ("Payment verification failed: " ++ gateFieldOr env.verifyResp "reason"),
         true, false, none⟩
      else
        match env.settleResp with
        | none =>
            ⟨.settleFailed ("Payment settlement failed: " ++ gateFieldOr none "error"),
             true, true, none⟩
        | some s =>
            if !(phpTruthy s) || !(phpFieldTruthy s "success") then
              ⟨.settleFailed ("Payment settlement failed: " ++ gateFieldOr (some s) "error"),
               true, true, none⟩
            else ⟨.proceed s, true, true, some (encodeHeader s)⟩

/-- The transfer transaction handleSettleTransfer builds from a body:
the authorization fields in call order, gas limit 200000, sent by the
relayer wallet. -/
def txOf (cfg : FacConfig) (b : VerifyBody) : TxRequest :=
  ⟨b.requirements.asset, b.payload.payload.authorization.from_,
   b.payload.payload.authorization.to_, b.payload.payload.authorization.value,
   b.payload.payload.authorization.validAfter, b.payload.payload.authorization.validBefore,
   b.payload.payload.authorization.nonce, b.payload.payload.signature, 200000, cfg.relayer⟩

-- ============================================================
-- Spec-side model of the ordered verify checks (for refinement)
-- ============================================================

/-- The checks of spec §4.2 "Verify — checks, in order", transfer
mode, named in the spec's order. -/
inductive VCheck where
  | version | scheme | network | asset | mode | sig | dest | balance | window | amount
deriving DecidableEq

/-- EIP-712 domain for a verify body, per the spec: name/version from
the asset table, chainId from config, verifyingContract the asset. -/
def domainOf (cfg : FacConfig) (b : VerifyBody) : Eip712Domain :=
  match cfg.assets.lookup (lowerStr b.requirements.asset) with
  | some a => ⟨a.eip712Name, a.eip712Version, cfg.chainId, b.requirements.asset⟩
  | none => ⟨"", "", cfg.chainId, b.requirements.asset⟩

/-- Whether one spec check fails, written from the spec's words
(§4.2 items 1-10, transfer mode). -/
def specCheckFails (cfg : FacConfig) (env : ChainEnv) (b : VerifyBody) : VCheck → Bool
  | .version => b.payload.x402Version ≠ 2
  | .scheme => b.payload.scheme ≠ "exact"
  | .network => b.payload.network ≠ cfg.network
  | .asset =>
      match cfg.assets.lookup (lowerStr b.requirements.asset) with
      | none => true
      | some a => !a.eip3009
  | .mode => extraSettlementMode b.requirements ≠ some "transfer"
  | .sig =>
      match env.recover (domainOf cfg b) b.payload.payload.authorization
          b.payload.payload.signature with
      | .error _ => true
      | .ok s => (lowerStr s) ≠ (lowerStr b.payload.payload.authorization.from_)
  | .dest => (lowerStr b.payload.payload.authorization.to_) ≠ (lowerStr b.requirements.payTo)
  | .balance =>
      env.balanceOf b.requirements.asset b.payload.payload.authorization.from_
        < b.payload.payload.authorization.value
  | .window =>
      env.now < b.payload.payload.authorization.validAfter
        || env.now > b.payload.payload.authorization.validBefore
  | .amount => b.payload.payload.authorization.value < b.requirements.amount

/-- The spec's check order (§4.2, transfer mode). -/
def specOrder : List VCheck :=
  [.version, .scheme, .network, .asset, .mode, .sig, .dest, .balance, .window, .amount]

/-- First failing check in spec order, if any. -/
def specFirstFailure (cfg : FacConfig) (env : ChainEnv) (b : VerifyBody) : Option VCheck :=
  specOrder.find? (specCheckFails cfg env b)

/-- The reason string the code attaches to each failing check. -/
def specReason (cfg : FacConfig) (env : ChainEnv) (b : VerifyBody) : VCheck → String
  | .version => "Unsupported x402 version"
  | .scheme => "Unsupported scheme"
  | .network => "Wrong network: " ++ b.payload.network
  | .asset => "Unsupported asset"
  | .mode => "Settlement mode must be transfer"
  | .sig =>
      match env.recover (domainOf cfg b) b.payload.payload.authorization
          b.payload.payload.signature with
      | .error e => e
      | .ok _ => "Invalid signature"
  | .dest => "Wrong payment destination (expected treasury)"
  | .balance => "Insufficient balance"
  | .window => "Authorization expired or not yet valid"
  | .amount => "Insufficient amount"

/-- How many balanceOf reads the transfer verify performs: none when a
check before the balance read fails, one otherwise. -/
def specReads : Option VCheck → Nat
  | some .version => 0
  | some .scheme => 0
  | some .network => 0
  | some .asset => 0
  | some .mode => 0
  | some .sig => 0
  | some .dest => 0
  | _ => 1

-- ============================================================
-- Small parsing helper used by the round-trip lemmas
-- ============================================================

/-- Whether the input starts with a decimal digit (a number literal
would run on into it). -/
def digitStart : List Char → Bool
  | [] => false
  | c :: _ => c.isDigit

mutual

/-- Structural size of a JSON value (induction measure). -/
def jsize : Json → Nat
  | .null => 1
  | .bool _ => 1
  | .num _ => 1
  | .str _ => 1
  | .arr es => 1 + lsize es
  | .obj ms => 1 + msize ms

def lsize : JList → Nat
  | .nil => 1
  | .cons h t => 1 + jsize h + lsize t

def msize : JMembers → Nat
  | .nil => 1
  | .cons _ v t => 1 + jsize v + msize t

end

-- ============================================================
-- Concrete sample data for witnesses
-- ============================================================

/-- USDT0 address on Conflux eSpace, as configured. -/
def usdtAddr : String := "0xaf37e8b6c9ed7f6318979f56fc287d76c30847ff"

/-- The facilitator's boot-time asset table. -/
def sampleAssets : List (String × AssetInfo) :=
  [(usdtAddr, ⟨"USDT0", 6, true, "USDT0", "1"⟩),
   ("0xded1660192d4d82e7c0b628ba556861edbb5cada", ⟨"CNHT0", 6, true, "CNHT0", "1"⟩)]

/-- A facilitator configuration without an escrow adapter (the
X402_ADAPTER_ADDRESS env variable unset, so the empty string). -/
def sampleCfg : FacConfig :=
  ⟨"sekret", 1030, "eip155:1030", sampleAssets, "", "0xRelayer", some "demokey"⟩

/-- The same configuration with an escrow adapter configured. -/
def sampleCfgEsc : FacConfig :=
  ⟨"sekret", 1030, "eip155:1030", sampleAssets, "0xAdapter", "0xRelayer", some "demokey"⟩

/-- A sample authorization. -/
def sampleAuth : Authorization :=
  ⟨"0xBuyer", "0xTreasury", 10000, 0, 1000, "0x0101"⟩

/-- A sample payment payload signed by 0xBuyer. -/
def samplePayload : PaymentPayload :=
  ⟨2, "exact", "eip155:1030", ⟨"0xSig", sampleAuth⟩⟩

/-- Sample transfer-mode requirements. -/
def sampleReq : Requirements :=
  ⟨usdtAddr, "0xTreasury", 10000, some ⟨some "transfer", none, none, some "USDT0", some "1"⟩⟩

/-- Sample verify body. -/
def sampleBody : VerifyBody := ⟨samplePayload, sampleReq⟩

/-- A benign chain environment: recovery succeeds with the buyer's
address, the buyer has balance 50000, the clock reads 500, and all
transactions mine with hash 0xTxHash. -/
def sampleEnv : ChainEnv :=
  ⟨fun _ _ _ => .ok "0xbuyer",
   fun _ _ => 50000,
   500,
   fun _ => .ok (),
   fun _ => .ok ⟨"0xTxHash"⟩,
   fun _ _ => .ok ⟨"0xTxHash"⟩,
   (200, Json.null)⟩

/-- X402Middleware::handle (escrow variant; same structure, the
facilitator endpoints differ). -/
def gateHandle (requirements : Json) (headerDecoded : Option Json)
    (env : GateEnv) : GateResult :=
  match headerDecoded with
  | none =>
      ⟨.sent402 (encodeHeader (Json.arr (.cons requirements .nil))), false, false, none⟩
  | some payload =>
      if !(phpTruthy payload) then ⟨.invalidPayload, false, false, none⟩
      else if gateResultFails env.verifyResp "valid" then
        ⟨.verifyFailed ("Payment verification failed: " ++ gateFieldOr env.verifyResp "reason"),
         true, false, none⟩
      else
        match env.settleResp with
        | none =>
            ⟨.settleFailed ("Payment settlement failed: " ++ gateFieldOr none "error"),
             true, true, none⟩
        | some s =>
            if !(phpTruthy s) || !(phpFieldTruthy s "success") then
              ⟨.settleFailed ("Payment settlement failed: " ++ gateFieldOr (some s) "error"),
               true, true, none⟩
            else ⟨.proceed s, true, true, some (encodeHeader s)⟩

end X402

namespace X402

-- ============================================================
-- Round-trip lemmas: decimal digits, strings, literals
-- ============================================================

theorem strMk_data (s : String) : (⟨s.data⟩ : String) = s := rfl

theorem digitCh_toNat : ∀ d, d < 10 → (digitCh d).toNat = 48 + d := by decide

theorem digitCh_isDigit : ∀ d, d < 10 → (digitCh d).isDigit = true := by decide

theorem natChars_ne_nil (n : Nat) : natChars n ≠ [] := by
  rw [natChars]
  split <;> simp

theorem natChars_digits (n : Nat) : ∀ c ∈ natChars n, c.isDigit = true := by
  induction n using natChars.induct with
  | case1 n h =>
      rw [natChars, dif_pos h]
      intro c hc
      simp at hc
      subst hc
      exact digitCh_isDigit n h
  | case2 n h ih =>
      rw [natChars, dif_neg h]
      intro c hc
      rcases List.mem_append.mp hc with h1 | h2
      · exact ih c h1
      · simp at h2
        subst h2
        exact digitCh_isDigit _ (Nat.mod_lt _ (by omega))

theorem natChars_foldl (n : Nat) :
    ∀ a, (natChars n).foldl (fun x c => x * 10 + (c.toNat - 48)) a
      = a * 10 ^ (natChars n).length + n := by
  induction n using natChars.induct with
  | case1 n h =>
      intro a
      rw [natChars, dif_pos h]
      simp only [List.foldl, List.length_cons, List.length_nil, digitCh_toNat n h,
        pow_succ, pow_zero]
      omega
  | case2 n h ih =>
      intro a
      rw [natChars, dif_neg h]
      rw [List.foldl_append, ih]
      simp only [List.foldl, List.length_append, List.length_cons, List.length_nil,
        digitCh_toNat _ (Nat.mod_lt n (by omega) : n % 10 < 10), pow_succ, pow_zero]
      have hdm := Nat.div_add_mod n 10
      ring_nf
      omega

theorem digitsVal_natChars (n : Nat) : digitsVal (natChars n) = n := by
  have h := natChars_foldl n 0
  simpa [digitsVal] using h

theorem takeDigits_append (ds rest : List Char) (h : ∀ c ∈ ds, c.isDigit = true)
    (hr : digitStart rest = false) : takeDigits (ds ++ rest) = (ds, rest) := by
  induction ds with
  | nil =>
      cases rest with
      | nil => rfl
      | cons c t =>
          simp [digitStart] at hr
          simp [takeDigits, hr]
  | cons c t ih =>
      have hc : c.isDigit = true := h c (by simp)
      simp only [List.cons_append, takeDigits, hc, if_true]
      rw [List.append_eq, ih (fun x hx => h x (by simp [hx]))]

theorem parseNat_natChars (n : Nat) (rest : List Char) (hr : digitStart rest = false) :
    parseNat (natChars n ++ rest) = some (n, rest) := by
  have ht := takeDigits_append (natChars n) rest (natChars_digits n) hr
  rw [parseNat, ht]
  rcases he : natChars n with _ | ⟨c, cs⟩
  · exact absurd he (natChars_ne_nil n)
  · simp [← he, digitsVal_natChars]

theorem scanStr_append (cs rest : List Char) (h : ∀ c ∈ cs, safeChar c = true) :
    scanStr (cs ++ '"' :: rest) = some (cs, rest) := by
  induction cs with
  | nil => simp [scanStr]
  | cons c t ih =>
      have hc := h c (by simp)
      simp only [safeChar, Bool.and_eq_true, decide_eq_true_eq, bne,
        Bool.not_eq_true'] at hc
      have hge : 32 <= c.toNat := hc.1.1.1
      have hq : c ≠ '"' := hc.1.2
      have hbs : c ≠ '\\' := hc.2
      simp [scanStr, hq, hbs, show ¬(c.toNat < 32) by omega,
        ih (fun x hx => h x (by simp [hx]))]

theorem stripPre_append (p rest : List Char) : stripPre p (p ++ rest) = some rest := by
  induction p with
  | nil => rfl
  | cons c t ih => simp [stripPre, ih]

theorem isDigit_48_57 {c : Char} (h : c.isDigit = true) : 48 ≤ c.toNat ∧ c.toNat ≤ 57 := by
  simp only [Char.isDigit, Bool.and_eq_true, decide_eq_true_eq] at h
  exact ⟨h.1, h.2⟩

-- ============================================================
-- Round-trip lemmas: shape of printed output
-- ============================================================

theorem printJson_head (j : Json) :
    ∃ c cs, printJson j = c :: cs ∧
      (c = 'n' ∨ c = 't' ∨ c = 'f' ∨ c = '"' ∨ c = '-' ∨ c = '[' ∨ c = lbrace
        ∨ c.isDigit = true) := by
  cases j with
  | null => exact ⟨'n', _, rfl, by tauto⟩
  | bool b => cases b with
      | true => exact ⟨'t', _, rfl, by tauto⟩
      | false => exact ⟨'f', _, rfl, by tauto⟩
  | str s => exact ⟨'"', _, rfl, by tauto⟩
  | arr es => exact ⟨'[', _, rfl, by tauto⟩
  | obj ms => exact ⟨lbrace, _, rfl, by tauto⟩
  | num n =>
      rw [printJson, intChars]
      split
      · exact ⟨'-', _, rfl, by tauto⟩
      · rcases he : natChars n.natAbs with _ | ⟨c, cs⟩
        · exact absurd he (natChars_ne_nil _)
        · refine ⟨c, cs, rfl, ?_⟩
          have := natChars_digits n.natAbs c (by rw [he]; simp)
          tauto

theorem printJson_ne_nil (j : Json) : printJson j ≠ [] := by
  obtain ⟨c, cs, he, _⟩ := printJson_head j
  simp [he]

theorem printJson_length_pos (j : Json) : 1 ≤ (printJson j).length := by
  obtain ⟨c, cs, he, _⟩ := printJson_head j
  simp [he]

theorem printElems_ne_nil (l : JList) : printElems l ≠ [] := by
  cases l with
  | nil => simp [printElems]
  | cons h t =>
      cases t with
      | nil => simp [printElems, printJson_ne_nil]
      | cons h' t' => simp [printElems, printJson_ne_nil]

theorem digit_head_ne {c : Char} (h : c.isDigit = true) :
    c ≠ 'n' ∧ c ≠ 't' ∧ c ≠ 'f' ∧ c ≠ '"' ∧ c ≠ '-' ∧ c ≠ '[' ∧ c ≠ lbrace := by
  refine ⟨?_, ?_, ?_, ?_, ?_, ?_, ?_⟩ <;> rintro rfl <;> exact absurd h (by decide)

theorem printJson_head_delim (j : Json) :
    ∃ c cs, printJson j = c :: cs ∧ c ≠ ']' ∧ c ≠ rbrace ∧ c ≠ ',' := by
  obtain ⟨c, cs, he, hd⟩ := printJson_head j
  refine ⟨c, cs, he, ?_, ?_, ?_⟩ <;>
    rcases hd with h | h | h | h | h | h | h | h <;>
      first
      | (subst h; decide)
      | (rintro rfl; exact absurd h (by decide))

theorem printElems_head (h : Json) (t : JList) :
    ∃ c cs, printElems (.cons h t) = c :: cs ∧ c ≠ ']' := by
  obtain ⟨c0, cs0, hh, h1, _, _⟩ := printJson_head_delim h
  cases t with
  | nil => exact ⟨c0, cs0 ++ [']'], by simp [printElems, hh], h1⟩
  | cons h' t' =>
      exact ⟨c0, cs0 ++ ',' :: printElems (.cons h' t'), by simp [printElems, hh], h1⟩

theorem printMembers_head (k : String) (v : Json) (t : JMembers) :
    ∃ cs, printMembers (.cons k v t) = '"' :: cs := by
  cases t with
  | nil => exact ⟨_, rfl⟩
  | cons k' v' t' => exact ⟨_, rfl⟩

theorem jsize_pos (j : Json) : 1 ≤ jsize j := by
  cases j <;> simp [jsize]

theorem lsize_pos (l : JList) : 1 ≤ lsize l := by
  cases l <;> simp [lsize] <;> omega

theorem msize_pos (m : JMembers) : 1 ≤ msize m := by
  cases m <;> simp [msize] <;> omega

end X402

namespace X402

theorem parseVal_lbracket (f : Nat) (xs : List Char) :
    parseVal (f + 1) ('[' :: xs) = arrTail (parseElems f) xs := by
  simp [parseVal]

theorem parseVal_lbrace (f : Nat) (xs : List Char) :
    parseVal (f + 1) (lbrace :: xs) = objTail (parseMembers f) xs := by
  simp [parseVal, lbrace]

theorem rbrace_not_digit : rbrace.isDigit = false := by decide

set_option maxHeartbeats 2000000 in
theorem parse_print_strong : ∀ N : Nat,
    (∀ j : Json, jsize j ≤ N → jsafe j = true → ∀ fuel rest, digitStart rest = false →
      (printJson j ++ rest).length ≤ fuel →
      parseVal fuel (printJson j ++ rest) = some (j, rest))
  ∧ (∀ l : JList, lsize l ≤ N → lsafe l = true → l ≠ .nil → ∀ fuel rest,
      (printElems l ++ rest).length ≤ fuel →
      parseElems fuel (printElems l ++ rest) = some (.arr l, rest))
  ∧ (∀ m : JMembers, msize m ≤ N → msafe m = true → m ≠ .nil → ∀ fuel rest,
      (printMembers m ++ rest).length ≤ fuel →
      parseMembers fuel (printMembers m ++ rest) = some (.obj m, rest)) := by
  intro N
  induction N with
  | zero =>
      refine ⟨fun j hsz => absurd hsz (by have := jsize_pos j; omega),
        fun l hsz => absurd hsz (by have := lsize_pos l; omega),
        fun m hsz => absurd hsz (by have := msize_pos m; omega)⟩
  | succ N ih =>
      obtain ⟨ih1, ih2, ih3⟩ := ih
      refine ⟨?_, ?_, ?_⟩
      · -- values
        intro j hsz hsafe fuel rest hrest hlen
        cases fuel with
        | zero =>
            exfalso
            rw [List.length_append] at hlen
            have := printJson_length_pos j
            omega
        | succ f =>
          cases j with
          | null => simp [printJson, parseVal, stripPre]
          | bool b => cases b <;> simp [printJson, parseVal, stripPre]
          | str s =>
              have hall : ∀ c ∈ s.data, safeChar c = true := by
                simp only [jsafe, List.all_eq_true] at hsafe
                exact hsafe
              simp only [printJson, List.cons_append, List.append_assoc,
                List.singleton_append]
              simp [parseVal, scanStr_append s.data rest hall, strMk_data]
          | num n =>
              by_cases hn : n < 0
              · rw [printJson, intChars, if_pos hn]
                simp only [List.cons_append, parseVal]
                rw [if_neg (by decide : ¬('-' = 'n')), if_neg (by decide : ¬('-' = 't')),
                  if_neg (by decide : ¬('-' = 'f')), if_neg (by decide : ¬('-' = '"')),
                  if_pos trivial, parseNat_natChars _ _ hrest]
                simp only [Option.map]
                have he : (-(n.natAbs : Int)) = n := by omega
                rw [he]
              · rw [printJson, intChars, if_neg hn]
                rcases he : natChars n.natAbs with _ | ⟨c, cs⟩
                · exact absurd he (natChars_ne_nil _)
                · have hcd : c.isDigit = true := natChars_digits _ c (by rw [he]; simp)
                  obtain ⟨h1, h2, h3, h4, h5, h6, h7⟩ := digit_head_ne hcd
                  simp only [List.cons_append, parseVal]
                  rw [if_neg h1, if_neg h2, if_neg h3, if_neg h4, if_neg h5, if_neg h6,
                    if_neg h7, if_pos hcd]
                  rw [← List.cons_append, ← he, parseNat_natChars _ _ hrest]
                  simp only [Option.map]
                  have hco : (n.natAbs : Int) = n := by omega
                  rw [hco]
          | arr es =>
              cases es with
              | nil => simp [printJson, printElems, parseVal, arrTail]
              | cons h t =>
                  have hlsz : lsize (.cons h t) ≤ N := by
                    simp only [jsize] at hsz
                    omega
                  have hlsafe : lsafe (.cons h t) = true := by
                    simpa only [jsafe] using hsafe
                  obtain ⟨c0, cs0, hh, hne0⟩ := printElems_head h t
                  have hlen' : (printElems (.cons h t) ++ rest).length ≤ f := by
                    simp only [printJson, List.cons_append, List.length_cons,
                      List.length_append] at hlen
                    simp only [List.length_append]
                    omega
                  simp only [printJson, List.cons_append, parseVal]
                  rw [if_neg (by decide : ¬('[' = 'n')), if_neg (by decide : ¬('[' = 't')),
                    if_neg (by decide : ¬('[' = 'f')), if_neg (by decide : ¬('[' = '"')),
                    if_neg (by decide : ¬('[' = '-')), if_pos trivial]
                  rw [hh, List.cons_append, arrTail, if_neg hne0, ← List.cons_append, ← hh]
                  exact ih2 _ hlsz hlsafe (by simp) f rest hlen'
          | obj ms =>
              cases ms with
              | nil => simp [printJson, printMembers, parseVal, objTail, lbrace, rbrace]
              | cons k v t =>
                  have hmsz : msize (.cons k v t) ≤ N := by
                    simp only [jsize] at hsz
                    omega
                  have hmsafe : msafe (.cons k v t) = true := by
                    simpa only [jsafe] using hsafe
                  obtain ⟨cs0, hh⟩ := printMembers_head k v t
                  have hlen' : (printMembers (.cons k v t) ++ rest).length ≤ f := by
                    simp only [printJson, List.cons_append, List.length_cons,
                      List.length_append] at hlen
                    simp only [List.length_append]
                    omega
                  simp only [printJson, List.cons_append, parseVal_lbrace]
                  rw [hh, List.cons_append, objTail,
                    if_neg (by decide : ¬('"' = rbrace)), ← List.cons_append, ← hh]
                  exact ih3 _ hmsz hmsafe (by simp) f rest hlen'
      · -- element lists
        intro l hsz hsafe hne fuel rest hlen
        cases l with
        | nil => exact absurd rfl hne
        | cons h t =>
          cases fuel with
          | zero =>
              exfalso
              rw [List.length_append] at hlen
              have := List.length_pos.mpr (printElems_ne_nil (.cons h t))
              omega
          | succ f =>
            have hsafe2 : jsafe h = true ∧ lsafe t = true := by
              simpa only [lsafe, Bool.and_eq_true] using hsafe
            cases t with
            | nil =>
                have hjsz : jsize h ≤ N := by
                  simp only [lsize] at hsz
                  have := lsize_pos JList.nil
                  omega
                have hlen2 : (printJson h ++ ']' :: rest).length ≤ f + 1 := by
                  simp only [printElems, List.append_assoc, List.singleton_append,
                    List.length_append, List.length_cons] at hlen ⊢
                  omega
                simp only [printElems, List.append_assoc, List.singleton_append,
                  List.nil_append]
                simp only [parseElems]
                rw [ih1 h hjsz hsafe2.1 (f + 1) (']' :: rest) (by simp [digitStart])
                  hlen2]
                simp
            | cons h' t' =>
                have hjsz : jsize h ≤ N := by
                  simp only [lsize] at hsz
                  have := lsize_pos (JList.cons h' t')
                  have := jsize_pos h
                  omega
                have hlsz' : lsize (.cons h' t') ≤ N := by
                  simp only [lsize] at hsz ⊢
                  have := jsize_pos h
                  have := jsize_pos h'
                  have := lsize_pos t'
                  omega
                have hlen2 : (printJson h ++ ',' :: (printElems (.cons h' t') ++ rest)).length
                    ≤ f + 1 := by
                  simp only [printElems, List.append_assoc, List.cons_append,
                    List.length_append, List.length_cons] at hlen ⊢
                  omega
                have hlen3 : (printElems (.cons h' t') ++ rest).length ≤ f := by
                  simp only [printElems, List.append_assoc, List.cons_append,
                    List.length_append, List.length_cons] at hlen ⊢
                  have := printJson_length_pos h
                  omega
                simp only [printElems, List.append_assoc, List.cons_append,
                  List.nil_append]
                simp only [parseElems]
                rw [ih1 h hjsz hsafe2.1 (f + 1) (',' :: (printElems (.cons h' t') ++ rest))
                  (by simp [digitStart]) hlen2]
                simp only [Option.bind]
                simp only [show ((',' = ']') = False) from by simp,
                  show ((',' = ',') = True) from by simp, if_false, if_true]
                rw [ih2 _ hlsz' hsafe2.2 (by simp) f rest hlen3]
      · -- member lists
        intro m hsz hsafe hne fuel rest hlen
        cases m with
        | nil => exact absurd rfl hne
        | cons k v t =>
          cases fuel with
          | zero =>
              exfalso
              obtain ⟨cs0, hh⟩ := printMembers_head k v t
              rw [List.length_append, hh] at hlen
              simp at hlen
          | succ f =>
            have hsafe2 : (k.data.all safeChar = true ∧ jsafe v = true) ∧ msafe t = true := by
              simpa only [msafe, Bool.and_eq_true] using hsafe
            have hkall : ∀ c ∈ k.data, safeChar c = true := by
              have := hsafe2.1.1
              simpa only [List.all_eq_true] using this
            cases t with
            | nil =>
                have hjsz : jsize v ≤ N := by
                  simp only [msize] at hsz
                  have := msize_pos JMembers.nil
                  omega
                have hlen2 : (printJson v ++ rbrace :: rest).length ≤ f + 1 := by
                  simp only [printMembers, List.append_assoc, List.singleton_append,
                    List.cons_append, List.length_append, List.length_cons] at hlen ⊢
                  omega
                simp only [printMembers, List.append_assoc, List.singleton_append,
                  List.cons_append, List.nil_append]
                simp only [parseMembers]
                rw [scanStr_append k.data _ hkall]
                simp only [Option.bind]
                rw [ih1 v hjsz hsafe2.1.2 (f + 1) (rbrace :: rest)
                  (by simp [digitStart, rbrace_not_digit]) hlen2]
                simp [strMk_data]
            | cons k' v' t' =>
                have hjsz : jsize v ≤ N := by
                  simp only [msize] at hsz
                  have := msize_pos (JMembers.cons k' v' t')
                  omega
                have hmsz' : msize (.cons k' v' t') ≤ N := by
                  simp only [msize] at hsz ⊢
                  have := jsize_pos v
                  have := jsize_pos v'
                  have := msize_pos t'
                  omega
                have hlen2 : (printJson v ++ ',' :: (printMembers (.cons k' v' t') ++ rest)).length
                    ≤ f + 1 := by
                  simp only [printMembers, List.append_assoc, List.cons_append,
                    List.length_append, List.length_cons] at hlen ⊢
                  omega
                have hlen3 : (printMembers (.cons k' v' t') ++ rest).length ≤ f := by
                  simp only [printMembers, List.append_assoc, List.cons_append,
                    List.length_append, List.length_cons] at hlen ⊢
                  have := printJson_length_pos v
                  omega
                simp only [printMembers, List.append_assoc, List.cons_append,
                  List.nil_append]
                simp only [parseMembers]
                rw [scanStr_append k.data _ hkall]
                simp only [Option.bind]
                rw [ih1 v hjsz hsafe2.1.2 (f + 1)
                  (',' :: (printMembers (.cons k' v' t') ++ rest))
                  (by simp [digitStart]) hlen2]
                simp only [Option.bind]
                simp only [show ((',' = rbrace) = False) from by simp [rbrace],
                  show ((',' = ',') = True) from by simp, if_false, if_true]
                rw [ih3 _ hmsz' hsafe2.2 (by simp) f rest hlen3]

end X402

namespace X402

theorem parseJson_print (j : Json) (hj : jsafe j = true) :
    parseJson (printJsonStr j) = some j := by
  have h := (parse_print_strong (jsize j)).1 j le_rfl hj
    ((printJson j).length + 1) [] (by simp [digitStart]) (by simp)
  rw [parseJson]
  show (match parseVal ((printJson j).length + 1) (printJson j) with
    | some (r, []) => some r
    | _ => none) = some j
  rw [List.append_nil] at h
  rw [h]

theorem decC_encC : ∀ x, x < 64 → decC (encC x) = some x := by decide

theorem encC_ne_pad : ∀ x, x < 64 → encC x ≠ '=' := by decide

theorem b64dec_enc : ∀ (bs : List Nat), (∀ b ∈ bs, b < 256) →
    b64decBytes (b64encBytes bs) = some bs := by
  intro bs
  induction bs using b64encBytes.induct with
  | case1 => intro _; rfl
  | case2 a =>
      intro h
      have ha : a < 256 := h a (by simp)
      have h1 : a / 4 < 64 := by omega
      have h2 : a % 4 * 16 < 64 := by omega
      simp [b64encBytes, b64decBytes, decC_encC _ h1, decC_encC _ h2, Nat.mul_mod_left]
      omega
  | case3 a b =>
      intro h
      have ha : a < 256 := h a (by simp)
      have hb : b < 256 := h b (by simp)
      have h1 : a / 4 < 64 := by omega
      have h2 : a % 4 * 16 + b / 16 < 64 := by omega
      have h3 : b % 16 * 4 < 64 := by omega
      simp [b64encBytes, b64decBytes, decC_encC _ h1, decC_encC _ h2, decC_encC _ h3,
        encC_ne_pad _ h3, Nat.mul_mod_left]
      constructor
      · omega
      · omega
  | case4 a b c rest ih =>
      intro h
      have ha : a < 256 := h a (by simp)
      have hb : b < 256 := h b (by simp)
      have hc : c < 256 := h c (by simp)
      have h1 : a / 4 < 64 := by omega
      have h2 : a % 4 * 16 + b / 16 < 64 := by omega
      have h3 : b % 16 * 4 + c / 64 < 64 := by omega
      have h4 : c % 64 < 64 := by omega
      have hr := ih (fun x hx => h x (by simp [hx]))
      simp [b64encBytes, b64decBytes, decC_encC _ h1, decC_encC _ h2, decC_encC _ h3,
        decC_encC _ h4, encC_ne_pad _ h3, encC_ne_pad _ h4, hr]
      refine ⟨by omega, by omega, by omega⟩

end X402

namespace X402

theorem natChars_lt256 (n : Nat) : ∀ c ∈ natChars n, c.toNat < 256 := by
  intro c hc
  have := isDigit_48_57 (natChars_digits n c hc)
  omega

theorem intChars_lt256 (n : Int) : ∀ c ∈ intChars n, c.toNat < 256 := by
  intro c hc
  rw [intChars] at hc
  by_cases hn : n < 0
  · rw [if_pos hn] at hc
    rcases List.mem_cons.mp hc with h | h
    · subst h; decide
    · exact natChars_lt256 _ c h
  · rw [if_neg hn] at hc
    exact natChars_lt256 _ c hc

theorem printJson_ascii_strong : ∀ N : Nat,
    (∀ j : Json, jsize j ≤ N → jsafe j = true → ∀ c ∈ printJson j, c.toNat < 256)
  ∧ (∀ l : JList, lsize l ≤ N → lsafe l = true → ∀ c ∈ printElems l, c.toNat < 256)
  ∧ (∀ m : JMembers, msize m ≤ N → msafe m = true → ∀ c ∈ printMembers m, c.toNat < 256) := by
  intro N
  induction N with
  | zero =>
      refine ⟨fun j hsz => absurd hsz (by have := jsize_pos j; omega),
        fun l hsz => absurd hsz (by have := lsize_pos l; omega),
        fun m hsz => absurd hsz (by have := msize_pos m; omega)⟩
  | succ N ih =>
      obtain ⟨ih1, ih2, ih3⟩ := ih
      have hkey : ∀ (k : String), k.data.all safeChar = true →
          ∀ c ∈ k.data, c.toNat < 256 := by
        intro k hk c hc
        have := List.all_eq_true.mp hk c hc
        simp only [safeChar, Bool.and_eq_true, decide_eq_true_eq] at this
        omega
      refine ⟨?_, ?_, ?_⟩
      · intro j hsz hsafe
        cases j with
        | null => simp only [printJson]; decide
        | bool b => cases b <;> simp only [printJson] <;> decide
        | num n => exact intChars_lt256 n
        | str s =>
            simp only [printJson]
            refine List.forall_mem_cons.mpr ⟨by decide, ?_⟩
            refine List.forall_mem_append.mpr
              ⟨hkey s (by simpa [jsafe] using hsafe), by decide⟩
        | arr es =>
            simp only [printJson]
            exact List.forall_mem_cons.mpr ⟨by decide,
              ih2 es (by simp [jsize] at hsz; omega) (by simpa [jsafe] using hsafe)⟩
        | obj ms =>
            simp only [printJson]
            exact List.forall_mem_cons.mpr ⟨by decide,
              ih3 ms (by simp [jsize] at hsz; omega) (by simpa [jsafe] using hsafe)⟩
      · intro l hsz hsafe
        cases l with
        | nil => simp only [printElems]; decide
        | cons h t =>
            have hsafe2 : jsafe h = true ∧ lsafe t = true := by
              simpa only [lsafe, Bool.and_eq_true] using hsafe
            have hj : jsize h ≤ N := by
              simp only [lsize] at hsz
              have := lsize_pos t
              omega
            cases t with
            | nil =>
                simp only [printElems]
                exact List.forall_mem_append.mpr ⟨ih1 h hj hsafe2.1, by decide⟩
            | cons h' t' =>
                have hl : lsize (JList.cons h' t') ≤ N := by
                  simp only [lsize] at hsz ⊢
                  have := jsize_pos h
                  omega
                simp only [printElems]
                refine List.forall_mem_append.mpr ⟨ih1 h hj hsafe2.1, ?_⟩
                exact List.forall_mem_cons.mpr ⟨by decide, ih2 _ hl hsafe2.2⟩
      · intro m hsz hsafe
        cases m with
        | nil => simp only [printMembers]; decide
        | cons k v t =>
            have hsafe2 : (k.data.all safeChar = true ∧ jsafe v = true) ∧ msafe t = true := by
              simpa only [msafe, Bool.and_eq_true] using hsafe
            have hv : jsize v ≤ N := by
              simp only [msize] at hsz
              have := msize_pos t
              omega
            cases t with
            | nil =>
                simp only [printMembers, List.cons_append, List.append_assoc]
                refine List.forall_mem_cons.mpr ⟨by decide, ?_⟩
                refine List.forall_mem_append.mpr ⟨hkey k hsafe2.1.1, ?_⟩
                refine List.forall_mem_cons.mpr ⟨by decide, ?_⟩
                refine List.forall_mem_cons.mpr ⟨by decide, ?_⟩
                exact List.forall_mem_append.mpr ⟨ih1 v hv hsafe2.1.2, by decide⟩
            | cons k' v' t' =>
                have hm : msize (JMembers.cons k' v' t') ≤ N := by
                  simp only [msize] at hsz ⊢
                  have := jsize_pos v
                  omega
                simp only [printMembers, List.cons_append, List.append_assoc]
                refine List.forall_mem_cons.mpr ⟨by decide, ?_⟩
                refine List.forall_mem_append.mpr ⟨hkey k hsafe2.1.1, ?_⟩
                refine List.forall_mem_cons.mpr ⟨by decide, ?_⟩
                refine List.forall_mem_cons.mpr ⟨by decide, ?_⟩
                refine List.forall_mem_append.mpr ⟨ih1 v hv hsafe2.1.2, ?_⟩
                exact List.forall_mem_cons.mpr ⟨by decide, ih3 _ hm hsafe2.2⟩

end X402

namespace X402

theorem printJson_ascii (j : Json) (hj : jsafe j = true) :
    ∀ c ∈ printJson j, c.toNat < 256 :=
  (printJson_ascii_strong (jsize j)).1 j le_rfl hj

theorem map_ofNat_toNat (l : List Char) : (l.map Char.toNat).map Char.ofNat = l := by
  induction l with
  | nil => rfl
  | cons c t ih => simp [Char.ofNat_toNat, ih]

theorem b64decodeStr_encodeStr (s : String) (h : ∀ c ∈ s.data, c.toNat < 256) :
    b64decodeStr (b64encodeStr s) = some s := by
  rw [b64encodeStr, b64decodeStr]
  show (b64decBytes (b64encBytes (s.data.map Char.toNat))).map
    (fun bs => (⟨bs.map Char.ofNat⟩ : String)) = some s
  rw [b64dec_enc _ (by
    intro b hb
    simp only [List.mem_map] at hb
    obtain ⟨c, hc, rfl⟩ := hb
    exact h c hc)]
  simp only [Option.map, map_ofNat_toNat]

theorem decodeHeader_encodeHeader (j : Json) (hj : jsafe j = true) :
    decodeHeader (encodeHeader j) = some j := by
  rw [encodeHeader, decodeHeader]
  rw [b64decodeStr_encodeStr (printJsonStr j) (fun c hc => printJson_ascii j hj c hc)]
  exact parseJson_print j hj

end X402


namespace X402

-- ============================================================
-- Claim theorems
-- ============================================================

/-- C8: every facilitator endpoint other than GET /x402/health (the
verify, settle, verify-transfer, settle-transfer and demo-ai POST
handlers) answers 401 with an error body when the shared-secret header
is absent, empty, or different from the boot-time key, and does so
before parsing the body or touching the chain: the effects record is
empty. An absent or mismatched header is exactly apiKeyOk = false. -/
theorem C8_auth_first (cfg : FacConfig) (env : ChainEnv) (k : Option String)
    (b : Option VerifyBody) (db : Option DemoBody) (hk : apiKeyOk cfg k = false) :
    apiKeyOk cfg none = false
    ∧ (∀ s, s ≠ cfg.apiKey → apiKeyOk cfg (some s) = false)
    ∧ handleVerify cfg env k b = ⟨401, errJson "Invalid or missing API key", {}⟩
    ∧ handleSettle cfg env k b = ⟨401, errJson "Invalid or missing API key", {}⟩
    ∧ handleVerifyTransfer cfg env k b = ⟨401, errJson "Invalid or missing API key", {}⟩
    ∧ handleSettleTransfer cfg env k b = ⟨401, errJson "Invalid or missing API key", {}⟩
    ∧ handleDemoAi cfg env k db = ⟨401, errJson "Invalid or missing API key", {}⟩ := by
  refine ⟨rfl, ?_, ?_, ?_, ?_, ?_, ?_⟩
  · intro s hs
    simp [apiKeyOk, hs]
  all_goals
    simp [handleVerify, handleSettle, handleVerifyTransfer, handleSettleTransfer,
      handleDemoAi, hk]

/-- Closed witness for C8 at a concrete mismatched key. -/
theorem C8_auth_first_witness :
    apiKeyOk sampleCfg (some "wrong") = false
    ∧ handleDemoAi sampleCfg sampleEnv (some "wrong") none
        = ⟨401, errJson "Invalid or missing API key", {}⟩ := by
  have h := C8_auth_first sampleCfg sampleEnv (some "wrong") none none (by decide)
  exact ⟨by decide, h.2.2.2.2.2.2⟩

end X402

namespace X402

/-- C5: settle-transfer with a good key and parseable body always
broadcasts transferWithAuthorization with exactly the authorization's
fields, gas limit 200000, through the relayer wallet; it re-runs no
off-chain check (the response is a function of the sendTransfer oracle
alone, whatever the recovery, balance and clock oracles say), and a
chain-level failure (including a revert) becomes HTTP 500 with
success:false and the revert reason or message. -/
theorem C5_settle_transfer_blind (cfg : FacConfig) (env : ChainEnv) (k : Option String)
    (b : VerifyBody) (hk : apiKeyOk cfg k = true) :
    (handleSettleTransfer cfg env k (some b)).fx.sentTransferTx = some (txOf cfg b)
    ∧ (∀ e, env.sendTransfer (txOf cfg b) = .error e →
        handleSettleTransfer cfg env k (some b)
          = ⟨500, settleErrJson e,
              { bodyParsed := true, sentTransferTx := some (txOf cfg b) }⟩)
    ∧ (∀ env' : ChainEnv, env'.sendTransfer = env.sendTransfer →
        handleSettleTransfer cfg env' k (some b) = handleSettleTransfer cfg env k (some b)) := by
  refine ⟨?_, ?_, ?_⟩
  · simp only [handleSettleTransfer, hk, Bool.not_true, Bool.false_eq_true, if_false]
    split <;> rfl
  · intro e he
    simp only [handleSettleTransfer, hk, Bool.not_true, Bool.false_eq_true, if_false]
    rw [show txOf cfg b = ⟨b.requirements.asset, b.payload.payload.authorization.from_,
      b.payload.payload.authorization.to_, b.payload.payload.authorization.value,
      b.payload.payload.authorization.validAfter, b.payload.payload.authorization.validBefore,
      b.payload.payload.authorization.nonce, b.payload.payload.signature,
      200000, cfg.relayer⟩ from rfl] at he
    simp only [he]
    rfl
  · intro env' henv
    simp only [handleSettleTransfer, henv]

/-- Closed witness for C5: with the sample data and an oracle that
rejects every transaction with reason "execution reverted", the
response is HTTP 500 with that reason. -/
theorem C5_settle_transfer_blind_witness :
    handleSettleTransfer sampleCfg
        { sampleEnv with sendTransfer := fun _ => .error "execution reverted" }
        (some "sekret") (some sampleBody)
      = ⟨500, settleErrJson "execution reverted",
          { bodyParsed := true, sentTransferTx := some (txOf sampleCfg sampleBody) }⟩ :=
  (C5_settle_transfer_blind sampleCfg
    { sampleEnv with sendTransfer := fun _ => .error "execution reverted" }
    (some "sekret") sampleBody (by decide)).2.1 "execution reverted" rfl

end X402

namespace X402

/-- C10 counterexample: a PAYMENT-SIGNATURE header decoding to the
JSON number 1 is neither an array nor an object, yet the gate does not
reject it with 400 X402_INVALID_PAYLOAD: it proceeds to call the
facilitator verify endpoint, refuting the claim that only non-empty
arrays or objects proceed. -/
theorem C10_counterexample :
    (gateHandleTransfer (Json.obj .nil) (some (Json.num 1))
        ⟨some (invalidJson "Invalid signature"), none⟩).verifyCalled = true
    ∧ (gateHandleTransfer (Json.obj .nil) (some (Json.num 1))
        ⟨some (invalidJson "Invalid signature"), none⟩).outcome ≠ GateOutcome.invalidPayload
    ∧ (∀ l, Json.num 1 ≠ Json.arr l) ∧ (∀ m, Json.num 1 ≠ Json.obj m) := by
  refine ⟨rfl, ?_, fun l h => Json.noConfusion h, fun m h => Json.noConfusion h⟩
  intro h
  simp [gateHandleTransfer, phpTruthy, gateResultFails, invalidJson, phpFieldTruthy,
    jget, jget.go, phpTruthy] at h

/-- C10 amended: a decoded PAYMENT-SIGNATURE value is rejected with
HTTP 400 X402_INVALID_PAYLOAD exactly when PHP treats it as falsy
(null — which is also what undecodable input becomes — false, 0, the
empty string, the string "0", and the empty array or object); every
PHP-truthy decoded value, including non-zero numbers, true, and
non-empty strings, proceeds to the facilitator verify call. -/
theorem C10_falsy_payload (reqs d : Json) (env : GateEnv) :
    (phpTruthy d = false →
      gateHandleTransfer reqs (some d) env = ⟨.invalidPayload, false, false, none⟩)
    ∧ (phpTruthy d = true → (gateHandleTransfer reqs (some d) env).verifyCalled = true) := by
  constructor
  · intro hf
    simp [gateHandleTransfer, hf]
  · intro ht
    simp only [gateHandleTransfer, ht, Bool.not_true, Bool.false_eq_true, if_false]
    split
    · rfl
    · split
      · rfl
      · split <;> rfl

/-- Closed witness for C10 amended, at the falsy decoded value "0" and
the truthy decoded value true. -/
theorem C10_falsy_payload_witness :
    phpTruthy (Json.str "0") = false
    ∧ gateHandleTransfer (Json.obj .nil) (some (Json.str "0"))
        ⟨some validJson, none⟩ = ⟨.invalidPayload, false, false, none⟩
    ∧ phpTruthy (Json.bool true) = true
    ∧ (gateHandleTransfer (Json.obj .nil) (some (Json.bool true))
        ⟨some validJson, none⟩).verifyCalled = true := by
  refine ⟨by decide, (C10_falsy_payload (Json.obj .nil) (Json.str "0")
      ⟨some validJson, none⟩).1 (by decide), by decide,
    (C10_falsy_payload (Json.obj .nil) (Json.bool true)
      ⟨some validJson, none⟩).2 (by decide)⟩

end X402

namespace X402

/-- C4: for a request whose PAYMENT-SIGNATURE header decodes to a
(PHP-truthy) payload, both gate variants turn facilitator verdicts into
statuses exactly as specified: a verify result with valid:false gives
the 402 X402_VERIFY_FAILED outcome carrying the facilitator's reason;
once verify passed, a settle transport failure or a settle result with
success:false gives the 500 X402_SETTLE_FAILED outcome carrying the
error; and the protected handler is reached only when the settle
result's success field is truthy (the facilitator only ever sets the
boolean true there). -/
theorem C4_gate_verdicts (reqs d : Json) (env : GateEnv) (hd : phpTruthy d = true) :
    (∀ v, env.verifyResp = some v → jget v "valid" = some (.bool false) →
      (gateHandleTransfer reqs (some d) env).outcome
          = .verifyFailed ("Payment verification failed: " ++ phpFieldStr v "reason" "unknown")
        ∧ (gateHandle reqs (some d) env).outcome
          = .verifyFailed ("Payment verification failed: " ++ phpFieldStr v "reason" "unknown"))
    ∧ (gateResultFails env.verifyResp "valid" = false →
        (env.settleResp = none →
          (gateHandleTransfer reqs (some d) env).outcome
              = .settleFailed "Payment settlement failed: unknown"
            ∧ (gateHandle reqs (some d) env).outcome
              = .settleFailed "Payment settlement failed: unknown")
        ∧ (∀ s, env.settleResp = some s → jget s "success" = some (.bool false) →
            (gateHandleTransfer reqs (some d) env).outcome
                = .settleFailed ("Payment settlement failed: " ++ phpFieldStr s "error" "unknown")
              ∧ (gateHandle reqs (some d) env).outcome
                = .settleFailed ("Payment settlement failed: " ++ phpFieldStr s "error" "unknown")))
    ∧ (∀ s, ((gateHandleTransfer reqs (some d) env).outcome = .proceed s
          ∨ (gateHandle reqs (some d) env).outcome = .proceed s) →
        env.settleResp = some s ∧ phpTruthy s = true ∧ phpFieldTruthy s "success" = true) := by
  refine ⟨?_, ?_, ?_⟩
  · intro v hv hvalid
    have hfail : gateResultFails (some v) "valid" = true := by
      simp [gateResultFails, phpFieldTruthy, hvalid, phpTruthy]
    constructor <;>
      simp [gateHandleTransfer, gateHandle, hd, hv, hfail, gateFieldOr]
  · intro hok
    constructor
    · intro hnone
      constructor <;>
        simp [gateHandleTransfer, gateHandle, hd, hok, hnone, gateFieldOr]
    · intro s hs hsf
      have htr : phpFieldTruthy s "success" = false := by
        simp [phpFieldTruthy, hsf, phpTruthy]
      constructor <;>
        simp [gateHandleTransfer, gateHandle, hd, hok, hs, htr, gateFieldOr]
  · intro s hs
    rcases hs with hs | hs
    · simp only [gateHandleTransfer] at hs
      simp only [hd, Bool.not_true, Bool.false_eq_true, if_false] at hs
      by_cases hok : gateResultFails env.verifyResp "valid" = true
      · simp [hok] at hs
      · simp only [Bool.not_eq_true] at hok
        simp only [hok, if_neg] at hs
        rcases he : env.settleResp with _ | s'
        · rw [he] at hs
          simp at hs
        · rw [he] at hs
          by_cases hsucc : (!phpTruthy s' || !phpFieldTruthy s' "success") = true
          · simp [hsucc] at hs
          · simp only [hsucc] at hs
            simp only [Bool.or_eq_true, Bool.not_eq_true', not_or,
              Bool.not_eq_false] at hsucc
            simp only [if_false, Bool.false_eq_true] at hs
            cases hs
            exact ⟨rfl, hsucc.1, hsucc.2⟩
    · simp only [gateHandle] at hs
      simp only [hd, Bool.not_true, Bool.false_eq_true, if_false] at hs
      by_cases hok : gateResultFails env.verifyResp "valid" = true
      · simp [hok] at hs
      · simp only [Bool.not_eq_true] at hok
        simp only [hok, if_neg] at hs
        rcases he : env.settleResp with _ | s'
        · rw [he] at hs
          simp at hs
        · rw [he] at hs
          by_cases hsucc : (!phpTruthy s' || !phpFieldTruthy s' "success") = true
          · simp [hsucc] at hs
          · simp only [hsucc] at hs
            simp only [Bool.or_eq_true, Bool.not_eq_true', not_or,
              Bool.not_eq_false] at hsucc
            simp only [if_false, Bool.false_eq_true] at hs
            cases hs
            exact ⟨rfl, hsucc.1, hsucc.2⟩

end X402

namespace X402

/-- Closed witness for C4: a truthy decoded payload with a failing
verify verdict yields the 402 X402_VERIFY_FAILED outcome with the
facilitator's reason. -/
theorem C4_gate_verdicts_witness :
    phpTruthy (Json.obj (.cons "a" (Json.num 1) .nil)) = true
    ∧ (gateHandleTransfer (Json.obj .nil)
        (some (Json.obj (.cons "a" (Json.num 1) .nil)))
        ⟨some (invalidJson "Insufficient amount"), none⟩).outcome
      = .verifyFailed "Payment verification failed: Insufficient amount" := by
  refine ⟨by decide, ?_⟩
  have h := (C4_gate_verdicts (Json.obj .nil) (Json.obj (.cons "a" (Json.num 1) .nil))
    ⟨some (invalidJson "Insufficient amount"), none⟩ (by decide)).1
    (invalidJson "Insufficient amount") rfl rfl
  exact h.1

/-- C7: when the PAYMENT-SIGNATURE header is absent, both gate
variants emit the 402 outcome whose PAYMENT-REQUIRED value is base64
of the JSON serialization of the one-element array wrapping the
requirements object, and decoding that value yields that array — an
array, never a bare object. -/
theorem C7_payment_required_array (reqs : Json) (env : GateEnv)
    (hsafe : jsafe reqs = true) :
    (gateHandleTransfer reqs none env).outcome
        = .sent402 (encodeHeader (Json.arr (.cons reqs .nil)))
    ∧ (gateHandle reqs none env).outcome
        = .sent402 (encodeHeader (Json.arr (.cons reqs .nil)))
    ∧ decodeHeader (encodeHeader (Json.arr (.cons reqs .nil)))
        = some (Json.arr (.cons reqs .nil))
    ∧ (∀ j, decodeHeader (encodeHeader (Json.arr (.cons reqs .nil))) = some j →
        (∃ l, j = Json.arr l) ∧ ∀ m, j ≠ Json.obj m) := by
  have hr : decodeHeader (encodeHeader (Json.arr (.cons reqs .nil)))
      = some (Json.arr (.cons reqs .nil)) :=
    decodeHeader_encodeHeader _ (by simp [jsafe, lsafe, hsafe])
  refine ⟨rfl, rfl, hr, ?_⟩
  intro j hj
  rw [hr] at hj
  cases hj
  exact ⟨⟨_, rfl⟩, fun m h => Json.noConfusion h⟩

/-- Closed witness for C7 at a concrete requirements object. -/
theorem C7_payment_required_array_witness :
    jsafe (Json.obj (.cons "scheme" (Json.str "exact") .nil)) = true
    ∧ decodeHeader (encodeHeader
        (Json.arr (.cons (Json.obj (.cons "scheme" (Json.str "exact") .nil)) .nil)))
      = some (Json.arr (.cons (Json.obj (.cons "scheme" (Json.str "exact") .nil)) .nil)) := by
  refine ⟨by decide, ?_⟩
  exact (C7_payment_required_array (Json.obj (.cons "scheme" (Json.str "exact") .nil))
    ⟨none, none⟩ (by decide)).2.2.1

/-- C9: the wire encoding round-trips: for every safe JSON value —
which covers every requirements and payload object this system
produces — base64-decoding and JSON-parsing the base64 of the JSON
serialization returns the same value, member order included (`Json`
objects compare by ordered member lists); in particular the client's
parsePaymentRequired (JSON.parse after atob, modelled by decodeHeader)
applied to the gate's PAYMENT-REQUIRED value recovers the wrapped
requirements array unchanged. -/
theorem C9_roundtrip (x : Json) (hx : jsafe x = true) :
    decodeHeader (encodeHeader x) = some x
    ∧ (∀ env hv, (gateHandleTransfer x none env).outcome = .sent402 hv →
        decodeHeader hv = some (Json.arr (.cons x .nil))) := by
  refine ⟨decodeHeader_encodeHeader x hx, ?_⟩
  intro env hv h
  have : hv = encodeHeader (Json.arr (.cons x .nil)) := by
    simp only [gateHandleTransfer] at h
    cases h
    rfl
  subst this
  exact decodeHeader_encodeHeader _ (by simp [jsafe, lsafe, hx])

/-- Closed witness for C9 at a nested sample value. -/
theorem C9_roundtrip_witness :
    jsafe (Json.obj (.cons "amount" (Json.str "10000")
        (.cons "extra" (Json.obj (.cons "settlementMode" (Json.str "transfer") .nil))
          .nil))) = true
    ∧ decodeHeader (encodeHeader (Json.obj (.cons "amount" (Json.str "10000")
        (.cons "extra" (Json.obj (.cons "settlementMode" (Json.str "transfer") .nil))
          .nil))))
      = some (Json.obj (.cons "amount" (Json.str "10000")
          (.cons "extra" (Json.obj (.cons "settlementMode" (Json.str "transfer") .nil))
            .nil))) := by
  refine ⟨by decide, ?_⟩
  exact (C9_roundtrip _ (by decide)).1

end X402

namespace X402

/-- C6: when settle-transfer succeeds, the facilitator's body is
exactly the object with keys x402Version:2, scheme:"exact",
network:(configured tag), success:true, transaction:(receipt hash),
payer:(authorization.from) in that order; a gate that passed verify
and received that body proceeds and sets PAYMENT-RESPONSE to base64 of
its JSON; decoding the header therefore yields the same object, whose
payer member is authorization.from. -/
theorem C6_payment_response_payer (cfg : FacConfig) (env : ChainEnv) (k : Option String)
    (b : VerifyBody) (receipt : Receipt) (hk : apiKeyOk cfg k = true)
    (hsend : env.sendTransfer (txOf cfg b) = .ok receipt) :
    handleSettleTransfer cfg env k (some b)
      = ⟨200, settleOkJson cfg.network receipt.hash b.payload.payload.authorization.from_,
          { bodyParsed := true, sentTransferTx := some (txOf cfg b) }⟩
    ∧ (∀ reqs d genv, phpTruthy d = true →
        gateResultFails genv.verifyResp "valid" = false →
        genv.settleResp
            = some (settleOkJson cfg.network receipt.hash
                b.payload.payload.authorization.from_) →
        (gateHandleTransfer reqs (some d) genv).outcome
            = .proceed (settleOkJson cfg.network receipt.hash
                b.payload.payload.authorization.from_)
          ∧ (gateHandleTransfer reqs (some d) genv).paymentResponseHeader
            = some (encodeHeader (settleOkJson cfg.network receipt.hash
                b.payload.payload.authorization.from_)))
    ∧ (jsafe (settleOkJson cfg.network receipt.hash
          b.payload.payload.authorization.from_) = true →
        decodeHeader (encodeHeader (settleOkJson cfg.network receipt.hash
            b.payload.payload.authorization.from_))
          = some (settleOkJson cfg.network receipt.hash
              b.payload.payload.authorization.from_))
    ∧ jget (settleOkJson cfg.network receipt.hash b.payload.payload.authorization.from_)
        "payer" = some (.str b.payload.payload.authorization.from_) := by
  refine ⟨?_, ?_, fun hsafe => decodeHeader_encodeHeader _ hsafe, ?_⟩
  · simp only [handleSettleTransfer, hk, Bool.not_true, Bool.false_eq_true, if_false]
    rw [show txOf cfg b = ⟨b.requirements.asset, b.payload.payload.authorization.from_,
      b.payload.payload.authorization.to_, b.payload.payload.authorization.value,
      b.payload.payload.authorization.validAfter, b.payload.payload.authorization.validBefore,
      b.payload.payload.authorization.nonce, b.payload.payload.signature,
      200000, cfg.relayer⟩ from rfl] at hsend
    simp only [hsend]
    rfl
  · intro reqs d genv hd hok hs
    have hsucc : phpTruthy (settleOkJson cfg.network receipt.hash
        b.payload.payload.authorization.from_) = true := by
      simp [settleOkJson, phpTruthy]
    have hfield : phpFieldTruthy (settleOkJson cfg.network receipt.hash
        b.payload.payload.authorization.from_) "success" = true := by
      simp [settleOkJson, phpFieldTruthy, jget, jget.go, phpTruthy]
    constructor <;>
      simp [gateHandleTransfer, hd, hok, hs, hsucc, hfield]
  · simp [settleOkJson, jget, jget.go]

/-- Closed witness for C6 at the sample settlement. -/
theorem C6_payment_response_payer_witness :
    handleSettleTransfer sampleCfg sampleEnv (some "sekret") (some sampleBody)
      = ⟨200, settleOkJson "eip155:1030" "0xTxHash" "0xBuyer",
          { bodyParsed := true, sentTransferTx := some (txOf sampleCfg sampleBody) }⟩
    ∧ jget (settleOkJson "eip155:1030" "0xTxHash" "0xBuyer") "payer"
        = some (.str "0xBuyer")
    ∧ decodeHeader (encodeHeader (settleOkJson "eip155:1030" "0xTxHash" "0xBuyer"))
        = some (settleOkJson "eip155:1030" "0xTxHash" "0xBuyer") := by
  have h := C6_payment_response_payer sampleCfg sampleEnv (some "sekret") sampleBody
    ⟨"0xTxHash"⟩ (by decide) rfl
  exact ⟨h.1, h.2.2.2, h.2.2.1 (by decide)⟩

/-- C3 counterexample: with no escrow adapter configured (the
X402_ADAPTER_ADDRESS env variable unset), an authenticated request to
/x402/verify with a perfectly parseable body is answered with HTTP
400, not 200, and the failure is not a transport failure — refuting
the claim that verify endpoints always answer 200 and that only
transport failures get 400. -/
theorem C3_counterexample :
    apiKeyOk sampleCfg (some "sekret") = true
    ∧ sampleCfg.escrowAdapter = ""
    ∧ (handleVerify sampleCfg sampleEnv (some "sekret") (some sampleBody)).status = 400
    ∧ (handleVerify sampleCfg sampleEnv (some "sekret") (some sampleBody)).body
        = invalidJson "Escrow adapter not configured" := by
  exact ⟨by decide, rfl, rfl, rfl⟩

end X402

namespace X402

end X402

namespace X402

/-- Characterization of handleVerifyTransfer for authenticated
requests with a parseable body: the response is always HTTP 200, the
body is valid:true when no spec-ordered check fails and otherwise the
first failing check's reason, and the balance read happens exactly
when no check before it fails. -/
theorem verifyTransfer_spec (cfg : FacConfig) (env : ChainEnv) (k : Option String)
    (b : VerifyBody) (hk : apiKeyOk cfg k = true) :
    handleVerifyTransfer cfg env k (some b)
      = ⟨200,
         (match specFirstFailure cfg env b with
          | none => validJson
          | some c => invalidJson (specReason cfg env b c)),
         { bodyParsed := true,
           balanceReads := specReads (specFirstFailure cfg env b) }⟩ := by
  simp only [handleVerifyTransfer, hk, Bool.not_true, Bool.false_eq_true, if_false]
  simp only [specFirstFailure, specOrder, List.find?]
  by_cases h1 : b.payload.x402Version = 2
  case neg =>
    simp [specCheckFails, h1, specReason, specReads]
  case pos =>
  simp only [specCheckFails, h1]
  norm_num
  by_cases h2 : b.payload.scheme = "exact"
  case neg => simp [h2, specReason, specReads]
  case pos =>
  simp only [h2]
  norm_num
  by_cases h3 : b.payload.network = cfg.network
  case neg => simp [h3, specReason, specReads]
  case pos =>
  simp only [h3]
  norm_num
  rcases hasset : List.lookup (lowerStr b.requirements.asset) cfg.assets with _ | asset
  case none => simp [hasset, specReason, specReads]
  case some =>
  rcases heip : asset.eip3009 with _ | _
  case false => simp [specReason, specReads, hasset, heip]
  case true =>
  norm_num
  by_cases h5 : extraSettlementMode b.requirements = some "transfer"
  case neg => simp [h5, specReason, specReads, heip]
  case pos =>
  simp only [h5]
  norm_num
  simp only [domainOf, hasset]
  rcases hrec : env.recover
      ⟨asset.eip712Name, asset.eip712Version, cfg.chainId, b.requirements.asset⟩
      b.payload.payload.authorization b.payload.payload.signature with e | signer
  case error => simp [hrec, specReason, specReads, domainOf, hasset, heip, h5]
  case ok =>
  norm_num
  by_cases h6 : (lowerStr signer) = (lowerStr b.payload.payload.authorization.from_)
  case neg => simp [h6, specReason, specReads, domainOf, hasset, hrec, heip, h5]
  case pos =>
  simp only [h6]
  norm_num
  by_cases h7 : (lowerStr b.payload.payload.authorization.to_) = (lowerStr b.requirements.payTo)
  case neg => simp [h7, specReason, specReads, heip, h5, h6, hrec, domainOf, hasset]
  case pos =>
  simp only [h7]
  norm_num
  by_cases h8 : env.balanceOf b.requirements.asset b.payload.payload.authorization.from_
      < b.payload.payload.authorization.value
  case pos => simp [h8, specReason, specReads, heip, h5, h6, h7, hrec, domainOf, hasset]
  case neg =>
  simp only [h8]
  norm_num
  by_cases h9a : env.now < b.payload.payload.authorization.validAfter
  case pos => simp [h9a, h8, specReason, specReads, heip, h5, h6, h7, hrec, domainOf, hasset]
  case neg =>
  by_cases h9b : b.payload.payload.authorization.validBefore < env.now
  case pos => simp [h9a, h9b, h8, specReason, specReads, heip, h5, h6, h7, hrec, domainOf, hasset]
  case neg =>
  simp only [h9a, h9b]
  norm_num
  by_cases h10 : b.payload.payload.authorization.value < b.requirements.amount
  case pos => simp [h9a, h9b, h8, h10, specReason, specReads, heip, h5, h6, h7, hrec, domainOf, hasset]
  case neg => simp [h9a, h9b, h8, h10, specReason, specReads, heip, h5, h6, h7, hrec, domainOf, hasset]

end X402

namespace X402

theorem invalid_ne_valid (r : String) : invalidJson r ≠ validJson := by
  intro h
  simp [invalidJson, validJson] at h

/-- C2: for every authenticated verify-transfer request with a
parseable body, the handler implements exactly the spec's ordered
check list: the response is HTTP 200; it is valid:true precisely when
no check fails; otherwise it reports the first failing check's reason
in the spec's order; and when the asset is not in the configured map,
the response is valid:false and no balanceOf read is performed. -/
theorem C2_ordered_checks (cfg : FacConfig) (env : ChainEnv) (k : Option String)
    (b : VerifyBody) (hk : apiKeyOk cfg k = true) :
    (handleVerifyTransfer cfg env k (some b)).status = 200
    ∧ ((handleVerifyTransfer cfg env k (some b)).body = validJson
        ↔ specFirstFailure cfg env b = none)
    ∧ (∀ c, specFirstFailure cfg env b = some c →
        (handleVerifyTransfer cfg env k (some b)).body = invalidJson (specReason cfg env b c))
    ∧ (cfg.assets.lookup (lowerStr b.requirements.asset) = none →
        (handleVerifyTransfer cfg env k (some b)).fx.balanceReads = 0
        ∧ jget (handleVerifyTransfer cfg env k (some b)).body "valid"
            = some (.bool false)) := by
  rw [verifyTransfer_spec cfg env k b hk]
  refine ⟨rfl, ?_, ?_, ?_⟩
  · cases hsf : specFirstFailure cfg env b with
    | none => simp
    | some c => simp [invalid_ne_valid, hsf]
  · intro c hc
    rw [hc]
  · intro hnone
    simp only [specFirstFailure, specOrder, List.find?]
    have ha : specCheckFails cfg env b .asset = true := by
      simp [specCheckFails, hnone]
    rw [ha]
    cases hv : specCheckFails cfg env b .version <;>
      cases hs : specCheckFails cfg env b .scheme <;>
        cases hn : specCheckFails cfg env b .network <;>
          simp [specReads, invalidJson, jget, jget.go, specReason]

/-- Closed witness for C2: the sample passes every check, and with an
unknown asset the checks stop before the balance read. -/
theorem C2_ordered_checks_witness :
    (handleVerifyTransfer sampleCfg sampleEnv (some "sekret") (some sampleBody)).body
        = validJson
    ∧ (handleVerifyTransfer sampleCfg sampleEnv (some "sekret")
        (some ⟨samplePayload, { sampleReq with asset := "0xdead" }⟩)).fx.balanceReads = 0 := by
  refine ⟨((C2_ordered_checks sampleCfg sampleEnv (some "sekret") sampleBody
      (by decide)).2.1).mpr (by decide),
    ((C2_ordered_checks sampleCfg sampleEnv (some "sekret")
      ⟨samplePayload, { sampleReq with asset := "0xdead" }⟩ (by decide)).2.2.2
      (by decide)).1⟩

/-- C1: if the verify-transfer endpoint answers valid:true, then the
request was authenticated and at verification time: the EIP-712
recovery succeeded with a signer equal (case-insensitively) to
authorization.from, authorization.to equals requirements.payTo
(case-insensitively), the on-chain balance of the payer covers
authorization.value, validAfter ≤ now ≤ validBefore for the
facilitator clock, and authorization.value ≥ requirements.amount as
exact integers. -/
theorem C1_verify_sound (cfg : FacConfig) (env : ChainEnv) (k : Option String)
    (b : VerifyBody)
    (hvalid : (handleVerifyTransfer cfg env k (some b)).body = validJson) :
    apiKeyOk cfg k = true
    ∧ ∃ asset recoveredSigner,
        cfg.assets.lookup (lowerStr b.requirements.asset) = some asset
        ∧ env.recover ⟨asset.eip712Name, asset.eip712Version, cfg.chainId,
            b.requirements.asset⟩ b.payload.payload.authorization
            b.payload.payload.signature = .ok recoveredSigner
        ∧ (lowerStr recoveredSigner) = (lowerStr b.payload.payload.authorization.from_)
        ∧ (lowerStr b.payload.payload.authorization.to_) = (lowerStr b.requirements.payTo)
        ∧ b.payload.payload.authorization.value
            ≤ env.balanceOf b.requirements.asset b.payload.payload.authorization.from_
        ∧ b.payload.payload.authorization.validAfter ≤ env.now
        ∧ env.now ≤ b.payload.payload.authorization.validBefore
        ∧ b.requirements.amount ≤ b.payload.payload.authorization.value := by
  have hk : apiKeyOk cfg k = true := by
    by_contra hk'
    simp only [Bool.not_eq_true] at hk'
    simp [handleVerifyTransfer, hk', errJson, validJson] at hvalid
  rw [verifyTransfer_spec cfg env k b hk] at hvalid
  have hsf : specFirstFailure cfg env b = none := by
    cases hsf : specFirstFailure cfg env b with
    | none => rfl
    | some c =>
        rw [hsf] at hvalid
        exact absurd hvalid (invalid_ne_valid _)
  have hall := List.find?_eq_none.mp hsf
  have hasset' := hall VCheck.asset (by simp [specOrder])
  have hsig' := hall VCheck.sig (by simp [specOrder])
  have hdest' := hall VCheck.dest (by simp [specOrder])
  have hbal' := hall VCheck.balance (by simp [specOrder])
  have hwin' := hall VCheck.window (by simp [specOrder])
  have hamt' := hall VCheck.amount (by simp [specOrder])
  refine ⟨hk, ?_⟩
  rcases hasset : cfg.assets.lookup (lowerStr b.requirements.asset) with _ | asset
  · rw [show cfg.assets.lookup (lowerStr b.requirements.asset)
      = List.lookup (lowerStr b.requirements.asset) cfg.assets from rfl] at hasset
    simp [specCheckFails, hasset] at hasset'
  rcases hrec : env.recover (domainOf cfg b) b.payload.payload.authorization
      b.payload.payload.signature with e | signer
  · simp [specCheckFails, hrec] at hsig'
  refine ⟨asset, signer, rfl, ?_, ?_, ?_, ?_, ?_, ?_, ?_⟩
  · have hdom : domainOf cfg b
        = ⟨asset.eip712Name, asset.eip712Version, cfg.chainId, b.requirements.asset⟩ := by
      simp [domainOf, hasset]
    rw [← hdom]
    exact hrec
  · simp [specCheckFails, hrec] at hsig'
    exact hsig'
  · simp [specCheckFails] at hdest'
    exact hdest'
  · simp [specCheckFails] at hbal'
    omega
  · simp [specCheckFails] at hwin'
    omega
  · simp [specCheckFails] at hwin'
    omega
  · simp [specCheckFails] at hamt'
    omega

end X402

namespace X402

/-- Closed witness for C1: the sample verify-transfer request is
accepted, and the recovered signer, destination, balance, window and
amount facts hold at the sample values. -/
theorem C1_verify_sound_witness :
    apiKeyOk sampleCfg (some "sekret") = true
    ∧ ∃ asset recoveredSigner,
        sampleCfg.assets.lookup (lowerStr sampleReq.asset) = some asset
        ∧ sampleEnv.recover ⟨asset.eip712Name, asset.eip712Version, sampleCfg.chainId,
            sampleReq.asset⟩ samplePayload.payload.authorization
            samplePayload.payload.signature = .ok recoveredSigner
        ∧ lowerStr recoveredSigner = lowerStr samplePayload.payload.authorization.from_
        ∧ lowerStr samplePayload.payload.authorization.to_ = lowerStr sampleReq.payTo
        ∧ samplePayload.payload.authorization.value
            ≤ sampleEnv.balanceOf sampleReq.asset samplePayload.payload.authorization.from_
        ∧ samplePayload.payload.authorization.validAfter ≤ sampleEnv.now
        ∧ sampleEnv.now ≤ samplePayload.payload.authorization.validBefore
        ∧ sampleReq.amount ≤ samplePayload.payload.authorization.value :=
  C1_verify_sound sampleCfg sampleEnv (some "sekret") sampleBody (by
    rw [verifyTransfer_spec sampleCfg sampleEnv (some "sekret") sampleBody (by decide)]
    rw [show specFirstFailure sampleCfg sampleEnv sampleBody = none from by decide])

end X402

namespace X402

/-- With an adapter configured, an authenticated escrow verify with a
parseable body always answers HTTP 200 with a valid / invalid-reason
body. -/
theorem verify_escrow_shape (cfg : FacConfig) (env : ChainEnv) (k : Option String)
    (b : VerifyBody) (hk : apiKeyOk cfg k = true) (hesc : ¬ cfg.escrowAdapter = "") :
    (handleVerify cfg env k (some b)).status = 200
    ∧ ((handleVerify cfg env k (some b)).body = validJson
       ∨ ∃ r, (handleVerify cfg env k (some b)).body = invalidJson r) := by
  simp only [handleVerify, hk, Bool.not_true, Bool.false_eq_true, if_false, if_neg hesc]
  by_cases h1 : b.payload.x402Version = 2
  case neg =>
    exact ⟨by simp [h1], Or.inr ⟨"Unsupported x402 version", by simp [h1]⟩⟩
  case pos =>
  simp only [h1]
  norm_num
  by_cases h2 : b.payload.scheme = "exact"
  case neg =>
    exact ⟨by simp [h2], Or.inr ⟨"Unsupported scheme", by simp [h2]⟩⟩
  case pos =>
  simp only [h2]
  norm_num
  by_cases h3 : b.payload.network = cfg.network
  case neg =>
    exact ⟨by simp [h3], Or.inr ⟨"Wrong network: " ++ b.payload.network, by simp [h3]⟩⟩
  case pos =>
  simp only [h3]
  norm_num
  rcases hasset : List.lookup (lowerStr b.requirements.asset) cfg.assets with _ | asset
  case none => exact ⟨by simp, Or.inr ⟨"Unsupported asset", by simp⟩⟩
  case some =>
  rcases heip : asset.eip3009 with _ | _
  case false => exact ⟨by simp [heip], Or.inr ⟨"Unsupported asset", by simp [heip]⟩⟩
  case true =>
  norm_num [heip]
  by_cases h5 : extraTransferMethod b.requirements = some "eip3009"
  case neg =>
    exact ⟨by simp [h5], Or.inr ⟨"Only eip3009 method supported", by simp [h5]⟩⟩
  case pos =>
  simp only [h5]
  norm_num
  rcases hrec : env.recover
      ⟨asset.eip712Name, asset.eip712Version, cfg.chainId, b.requirements.asset⟩
      b.payload.payload.authorization b.payload.payload.signature with e | signer
  case error => exact ⟨by simp, Or.inr ⟨e, by simp⟩⟩
  case ok =>
  norm_num
  by_cases h6 : lowerStr signer = lowerStr b.payload.payload.authorization.from_
  case neg =>
    exact ⟨by simp [h6], Or.inr ⟨"Invalid signature", by simp [h6]⟩⟩
  case pos =>
  simp only [h6]
  norm_num
  by_cases h7 : lowerStr b.payload.payload.authorization.to_ = lowerStr cfg.escrowAdapter
  case neg =>
    exact ⟨by simp [h7], Or.inr ⟨"Wrong payment destination", by simp [h7]⟩⟩
  case pos =>
  simp only [h7]
  norm_num
  by_cases h8 : env.balanceOf b.requirements.asset b.payload.payload.authorization.from_
      < b.payload.payload.authorization.value
  case pos =>
    exact ⟨by simp [h8], Or.inr ⟨"Insufficient balance", by simp [h8]⟩⟩
  case neg =>
  simp only [h8]
  norm_num
  by_cases h9 : env.now < b.payload.payload.authorization.validAfter
      ∨ b.payload.payload.authorization.validBefore < env.now
  case pos =>
    exact ⟨by simp [h9], Or.inr ⟨"Authorization expired or not yet valid", by simp [h9]⟩⟩
  case neg =>
  simp only [h9, if_false]
  by_cases h10 : b.payload.payload.authorization.value < b.requirements.amount
  case pos =>
    exact ⟨by simp [h10, h9], Or.inr ⟨"Insufficient amount", by simp [h10, h9]⟩⟩
  case neg =>
  simp only [h10]
  norm_num
  rcases hsim : env.staticSettle
      ⟨cfg.escrowAdapter, b.requirements.asset,
       (match b.requirements.extra with | some e => e.orderId | none => none),
       b.payload.payload.authorization.from_, b.payload.payload.authorization.value,
       b.payload.payload.authorization.validAfter, b.payload.payload.authorization.validBefore,
       b.payload.payload.authorization.nonce, b.payload.payload.signature,
       cfg.relayer⟩ with e | u
  case error =>
    exact ⟨rfl, Or.inr ⟨"Settlement simulation failed: " ++ e, rfl⟩⟩
  case ok => exact ⟨rfl, Or.inl rfl⟩

/-- C3 (amended): for every authenticated request, the transfer-mode
verify endpoint answers HTTP 200 with a valid / invalid-reason body
whenever the JSON body parses, and HTTP 400 when it does not; the
escrow-mode verify endpoint answers HTTP 400 with reason "Escrow
adapter not configured" whenever no escrow adapter is configured, and
otherwise behaves like the transfer endpoint: HTTP 200 with a valid /
invalid-reason body on every parseable body. -/
theorem C3_verify_statuses (cfg : FacConfig) (env : ChainEnv) (k : Option String)
    (b : VerifyBody) (hk : apiKeyOk cfg k = true) :
    ((handleVerifyTransfer cfg env k (some b)).status = 200
      ∧ ((handleVerifyTransfer cfg env k (some b)).body = validJson
         ∨ ∃ r, (handleVerifyTransfer cfg env k (some b)).body = invalidJson r))
    ∧ (handleVerifyTransfer cfg env k none).status = 400
    ∧ (cfg.escrowAdapter = "" →
        (handleVerify cfg env k (some b)).status = 400
        ∧ (handleVerify cfg env k (some b)).body
            = invalidJson "Escrow adapter not configured")
    ∧ (¬ cfg.escrowAdapter = "" →
        (handleVerify cfg env k (some b)).status = 200
        ∧ ((handleVerify cfg env k (some b)).body = validJson
           ∨ ∃ r, (handleVerify cfg env k (some b)).body = invalidJson r)) := by
  refine ⟨?_, ?_, ?_, ?_⟩
  · rw [verifyTransfer_spec cfg env k b hk]
    rcases hc : specFirstFailure cfg env b with _ | c
    · exact ⟨rfl, Or.inl rfl⟩
    · exact ⟨rfl, Or.inr ⟨specReason cfg env b c, rfl⟩⟩
  · simp [handleVerifyTransfer, hk]
  · intro h
    exact ⟨by simp [handleVerify, hk, h], by simp [handleVerify, hk, h]⟩
  · intro h
    exact verify_escrow_shape cfg env k b hk h

theorem C3_verify_statuses_witness :
    apiKeyOk sampleCfgEsc (some "sekret") = true
    ∧ (((handleVerifyTransfer sampleCfgEsc sampleEnv (some "sekret") (some sampleBody)).status = 200
        ∧ ((handleVerifyTransfer sampleCfgEsc sampleEnv (some "sekret") (some sampleBody)).body = validJson
           ∨ ∃ r, (handleVerifyTransfer sampleCfgEsc sampleEnv (some "sekret") (some sampleBody)).body = invalidJson r))
      ∧ (handleVerifyTransfer sampleCfgEsc sampleEnv (some "sekret") none).status = 400
      ∧ (sampleCfgEsc.escrowAdapter = "" →
          (handleVerify sampleCfgEsc sampleEnv (some "sekret") (some sampleBody)).status = 400
          ∧ (handleVerify sampleCfgEsc sampleEnv (some "sekret") (some sampleBody)).body
              = invalidJson "Escrow adapter not configured")
      ∧ (¬ sampleCfgEsc.escrowAdapter = "" →
          (handleVerify sampleCfgEsc sampleEnv (some "sekret") (some sampleBody)).status = 200
          ∧ ((handleVerify sampleCfgEsc sampleEnv (some "sekret") (some sampleBody)).body = validJson
             ∨ ∃ r, (handleVerify sampleCfgEsc sampleEnv (some "sekret") (some sampleBody)).body = invalidJson r))) :=
  ⟨by decide, C3_verify_statuses sampleCfgEsc sampleEnv (some "sekret") sampleBody (by decide)⟩

end X402
